import Mathlib

/-!
Verification of the tabrix extension background pipeline.

The development shallowly embeds the later, defensive version of the
background service worker (`processTabContent`, the tab lifecycle
listeners and the message handlers) together with the AI client module
(`generateTabNote`, `generateSmartTags`, `unifiedMemorySearch`).

Conventions of the embedding:
* JavaScript values that may be `undefined` are modelled with `Option`;
  a plain JS object field access that may yield `undefined` therefore has
  type `Option _`, and JS truthiness of strings is modelled explicitly.
* The asynchronous pipeline is modelled as a small-step system: each
  synchronous segment between two `await` suspension points is one atomic
  step, and a scheduler (a list of events) chooses the interleaving of
  pipeline continuations, tab-lifecycle events and message handlers.
* `Date.now()` is modelled by a timestamp carried by each event.
* The external AI backend (`Summarizer`, the Prompt API) and `JSON.parse`
  are modelled as unconstrained parameters of an `Env` record; theorems
  quantify over them.
* Exceptions thrown inside `processTabContent` are caught by its own
  `try/catch`; a step models the effects performed before the throw and
  then terminates the continuation, exactly as the source does.  In
  particular the statement `Object.assign(tabsStore[tabId], { tabNote:
  note, tags, lastUpdated: Date.now() })` near the end of
  `processTabContent` references the identifier `tags`, which is not in
  scope there (it is only the parameter of the `.then` callback), so
  evaluating that object literal raises a `ReferenceError` that the
  surrounding `catch` swallows; the combined write and the final
  notification of that block consequently never execute.
-/

set_option maxRecDepth 16000

namespace Tabrix

/-- JS truthiness for a possibly-undefined string: `undefined` and the
empty string are falsy. -/
def truthyStr : Option String → Bool
  | some s => s != ""
  | none => false

/-- Model of the JS expression `o || d` for a possibly-undefined string
`o` and a string default `d`. -/
def orElseStr : Option String → String → String
  | some s, d => if s = "" then d else s
  | none, d => d

/-- The captured-content argument of `processTabContent` (the `data` of
a `PAGE_CONTENT` message, or the `bodyText`-only object passed by the
model-download catch-up loop). -/
structure Content where
  url : Option String
  title : Option String
  bodyText : Option String
deriving Repr, DecidableEq

/-- One `TabRecord` of the store.  Every field is an `Option` because the
pipeline can recreate a record as the empty object literal, whose fields
are all `undefined`.  `clusterId` is `none` both for `null` and for
`undefined`. -/
structure TabRecord where
  tabId : Option Nat
  url : Option String
  title : Option String
  rawText : Option String
  tabNote : Option String
  tags : Option (List String)
  lastUpdated : Option Nat
  clusterId : Option Nat
  totalTime : Option Nat
deriving Repr, DecidableEq

/-- The empty object literal assigned by the vanished-record
resurrection branch of `processTabContent`. -/
def emptyRecord : TabRecord :=
  ⟨none, none, none, none, none, none, none, none, none⟩

/-- Result of awaiting an external backend call: the promise either
resolves with a value or rejects (throws at the `await`). -/
inductive CallResult (α : Type) where
  | ok (v : α)
  | err
deriving Repr, DecidableEq

/-- Shape of the value resolved by `summarizerInstance.summarize`: a
string, an object with an `output` field, an object with a `summary`
field, or some other value. -/
inductive SummarizerOutput where
  | strVal (s : String)
  | objOutput (s : String)
  | objSummary (s : String)
  | otherVal
deriving Repr, DecidableEq

/-- Shape of the value resolved by `promptInstance.prompt`: a string, an
object with a string `text` field, or some other value. -/
inductive PromptOutput where
  | strVal (s : String)
  | objText (s : String)
  | otherVal
deriving Repr, DecidableEq

/-- One element of the JSON array that `unifiedMemorySearch` expects the
model to return; only the `tabId` field is consumed.  `none` models an
absent or non-numeric `tabId`. -/
structure SemItem where
  tabId : Option Nat
deriving Repr, DecidableEq

/-- The external world of the background worker: the two AI backend
instances (absent when not initialized), the module-level `modelStatus`
string, and the platform `JSON.parse` restricted to the shape consumed
by `unifiedMemorySearch` (`none` models both a parse error and a parse
result that is not an array). -/
structure Env where
  summarizer : Option (String → CallResult SummarizerOutput)
  prompter : Option (String → CallResult PromptOutput)
  modelStatus : String
  jsonParse : String → Option (List SemItem)

/-- Model of `text.substring(0, n)`. -/
def jsSubstring (s : String) (n : Nat) : String :=
  (s.toList.take n).asString

/-- Model of the JS `s.trim()`: strip whitespace from both ends. -/
def jsTrim (s : String) : String :=
  (((s.toList.dropWhile Char.isWhitespace).reverse.dropWhile
      Char.isWhitespace).reverse).asString

/-- Model of the JS `s.toLowerCase()`. -/
def jsToLower (s : String) : String :=
  (s.toList.map Char.toLower).asString

/-- Model of the JS `s.startsWith(p)`. -/
def jsStartsWith (s p : String) : Bool :=
  p.toList.isPrefixOf s.toList

/-- The chain `result?.output || result?.summary || (typeof result ===
"string" ? result : null)` from `generateTabNote`; `none` models a
nullish or falsy-object outcome of the chain.  A string result is kept
even when empty, since the following `summaryText?.trim() ||` treats the
empty string and `null` alike. -/
def extractSummaryText : SummarizerOutput → Option String
  | .strVal s => some s
  | .objOutput s => if s = "" then none else some s
  | .objSummary s => if s = "" then none else some s
  | .otherVal => none

/-- Embedding of `generateTabNote` from `src/utils/aiClient.js`:
guard on the summarizer instance, then the short-input sentinel, then
the awaited `summarize` call with its result extraction, with the
`catch` branch returning the execution-failure sentinel.  The JS
`text.length` (UTF-16 units) is modelled as the character count. -/
def generateTabNote (env : Env) (text : String) : String :=
  match env.summarizer with
  | none => "AI Status: " ++ env.modelStatus ++ ". Summary unavailable."
  | some summarize =>
    if jsTrim text = "" ∨ text.length < 100 then
      "Not enough readable content for AI summary."
    else
      match summarize (jsSubstring text 15000) with
      | .ok result =>
        match extractSummaryText result with
        | some s => if jsTrim s = "" then "Summary could not be generated." else jsTrim s
        | none => "Summary could not be generated."
      | .err => "AI execution failed."

/-- The fixed category list `AI_CATEGORIES` of `aiClient.js`. -/
def AI_CATEGORIES : List String :=
  ["Research", "Work/Projects", "Study", "Entertainment", "News",
   "Shopping", "Social Media"]

/-- The template literal `tagPrompt` built by `generateSmartTags`. -/
def tagPrompt (tabNote : String) : String :=
  "\nYou are a smart browser tab categorizer.\nChoose the single most relevant category from this list:\n"
    ++ String.intercalate ", " AI_CATEGORIES
    ++ ".\n\nText:\n\"" ++ tabNote
    ++ "\"\n\nRespond with ONLY one category name from the list above.\n"

/-- The chain `response?.trim?.() || response?.text?.trim?.() ||
"Uncategorized"` from `generateSmartTags`. -/
def extractTagText : PromptOutput → String
  | .strVal s => if jsTrim s = "" then "Uncategorized" else jsTrim s
  | .objText s => if jsTrim s = "" then "Uncategorized" else jsTrim s
  | .otherVal => "Uncategorized"

/-- Embedding of `generateSmartTags` from `src/utils/aiClient.js`: the
prompter guard, the empty-note and status-sentinel guard, the awaited
prompt call, and the `catch` branch returning the fallback tag. -/
def generateSmartTags (env : Env) (tabNote : String) : List String :=
  match env.prompter with
  | none => ["Uncategorized"]
  | some promptFn =>
    if tabNote = "" ∨ jsStartsWith tabNote "AI Status:" then ["Uncategorized"]
    else
      match promptFn (tagPrompt tabNote) with
      | .ok resp => [extractTagText resp]
      | .err => ["Uncategorized"]

/-- Model of the JS `s.includes(sub)` substring test. -/
def jsIncludes (s sub : String) : Bool :=
  decide (sub.toList <:+: s.toList)

/-- The keyword predicate of `unifiedMemorySearch` step 1:
`t.tabNote?.toLowerCase().includes(q) || t.title?.toLowerCase().includes(q)`
with the query lowercased; optional chaining short-circuits an
`undefined` field to a falsy result. -/
def matchesKeyword (query : String) (t : TabRecord) : Bool :=
  (match t.tabNote with
   | some n => jsIncludes (jsToLower n) (jsToLower query)
   | none => false)
  || (match t.title with
      | some ti => jsIncludes (jsToLower ti) (jsToLower query)
      | none => false)

/-- Printing of a possibly-undefined number inside a template literal
(JS prints `undefined`). -/
def jsShowNatOpt : Option Nat → String
  | some n => toString n
  | none => "undefined"

/-- Printing of a possibly-undefined string inside a template literal. -/
def jsShowStrOpt : Option String → String
  | some s => s
  | none => "undefined"

/-- One bullet line of the tab list built by `unifiedMemorySearch`:
the template with the summary fallback and the joined tags fallback. -/
def tabBullet (t : TabRecord) : String :=
  "• [" ++ jsShowNatOpt t.tabId ++ "] \"" ++ jsShowStrOpt t.title ++ "\" — "
    ++ orElseStr t.tabNote "No summary."
    ++ " (Tags: "
    ++ (match t.tags with
        | some tags => if String.intercalate ", " tags = "" then "none"
                       else String.intercalate ", " tags
        | none => "none")
    ++ ")"

/-- The semantic-search prompt template of `unifiedMemorySearch`.  The
literal braces of the JSON example are written with escapes. -/
def searchPrompt (query : String) (tabsStore : List TabRecord) : String :=
  "\nYou are a semantic search assistant for browser tabs.\nUser query: \""
    ++ query
    ++ "\"\n\nAvailable tabs:\n"
    ++ String.intercalate "\n" (tabsStore.map tabBullet)
    ++ "\n\nReturn a JSON array (max 5) of the most relevant tabs with reasoning.\nExample:\n[\x7b\"tabId\": 12, \"reason\": \"About JavaScript closures\"\x7d]\n"

/-- Left-to-right scan of the regex replacement
`cleaned.replace(/```json|```/g, "")`: at each position the alternation
prefers the longer alternative. -/
def stripFences : List Char → List Char
  | [] => []
  | c :: cs =>
    if ("```json".toList).isPrefixOf (c :: cs) then
      stripFences ((c :: cs).drop 7)
    else if ("```".toList).isPrefixOf (c :: cs) then
      stripFences ((c :: cs).drop 3)
    else
      c :: stripFences cs
termination_by l => l.length
decreasing_by
  all_goals simp only [List.length_drop, List.length_cons]
  all_goals omega

/-- Embedding of `unifiedMemorySearch` from `src/utils/aiClient.js`.
Step 1 filters on the keyword predicate and returns the matches when
nonempty.  Otherwise the prompter is consulted: an absent prompter
returns no matches; a rejected prompt, a non-string response (whose
`.trim()` call throws into the outer `catch`), or an unparsable
response yields `[]`; a parsed array is mapped back to store records by
`tabId` with misses filtered out. -/
def unifiedMemorySearch (env : Env) (query : String) (tabsStore : List TabRecord) :
    List TabRecord :=
  let keywordMatches := tabsStore.filter (matchesKeyword query)
  if 0 < keywordMatches.length then keywordMatches
  else
    match env.prompter with
    | none => []
    | some promptFn =>
      match promptFn (searchPrompt query tabsStore) with
      | .err => []
      | .ok resp =>
        match resp with
        | .strVal s =>
          let cleaned := jsTrim ((stripFences (jsTrim s).toList).asString)
          match env.jsonParse cleaned with
          | none => []
          | some parsed =>
            parsed.filterMap (fun p => tabsStore.find? (fun t => t.tabId == p.tabId))
        | _ => []

/-- The in-memory `tabsStore` object: an association list from tab id to
record, in key insertion order. -/
abbrev Store := List (Nat × TabRecord)

/-- Reading `tabsStore[tabId]` (first binding of the key). -/
def lookupTab : Store → Nat → Option TabRecord
  | [], _ => none
  | (k, r) :: rest, key => if k = key then some r else lookupTab rest key

/-- The assignment `tabsStore[tabId] = r`: replace the binding when the
key is present, append a new binding otherwise. -/
def setTab : Store → Nat → TabRecord → Store
  | [], key, r => [(key, r)]
  | (k, r0) :: rest, key, r =>
    if k = key then (key, r) :: rest else (k, r0) :: setTab rest key r

/-- The statement `delete tabsStore[tabId]`. -/
def eraseTab : Store → Nat → Store
  | [], _ => []
  | (k, r0) :: rest, key =>
    if k = key then rest else (k, r0) :: eraseTab rest key

/-- Outward notifications sent with `chrome.runtime.sendMessage`. -/
inductive Msg where
  /-- `UPDATE_SMART_TAGS` carrying only `tabId` and `tabNote` (the
  summary-ready notification of `processTabContent`). -/
  | summaryUpdate (tabId : Nat) (tabNote : String)
  /-- `UPDATE_SMART_TAGS` carrying only `tabId` and `tags` (sent by the
  tag continuation). -/
  | tagsUpdate (tabId : Nat) (tags : List String)
  /-- `UPDATE_SMART_TAGS` carrying the combined `updated` object of the
  final block of `processTabContent` (unreachable: the block it belongs
  to dies on the unbound `tags` identifier). -/
  | fullUpdate (tabId : Nat) (url title tabNote : Option String)
      (tags : Option (List String)) (lastUpdated : Option Nat)
  /-- `DATA_UPDATED`, sent by the `chrome.tabs.onRemoved` listener. -/
  | dataUpdated
  /-- `MODEL_READY`, sent by the `createAndMonitorSummarizer` callback. -/
  | modelReady
deriving Repr, DecidableEq

/-- A suspended continuation of one `processTabContent` run.  Each
constructor names the `await` at which the run is parked. -/
inductive Task where
  /-- Parked at `await generateTabNote(content.bodyText)`. -/
  | noteWait (tabId : Nat) (content : Content)
  /-- Parked at the first `await saveTabs(tabsStore)` after the summary
  was written. -/
  | afterSave (tabId : Nat) (note : String)
  /-- The `.then` continuation parked at `generateSmartTags(note)`. -/
  | tagsWait (tabId : Nat) (note : String)
  /-- The tag continuation parked at its `await saveTabs(tabsStore)`. -/
  | tagsSaved (tabId : Nat) (tags : List String)
deriving Repr, DecidableEq

/-- Global state of the background worker: the in-memory store, the last
snapshot written through `saveTabs`, the log of outward notifications in
emission order, and the pool of suspended continuations. -/
structure Config where
  tabsStore : Store
  saved : Store
  msgs : List Msg
  tasks : List Task
deriving Repr, DecidableEq

/-- The state right after the service worker loads with empty storage. -/
def initConfig : Config := ⟨[], [], [], []⟩

/-- The record created by the ensure-record branch of
`processTabContent` itself; note that it initializes `tabNote` to the
empty string, not to the `"Generating..."` placeholder. -/
def freshRecord (tabId : Nat) (content : Content) (t : Nat) : TabRecord :=
  ⟨some tabId, some (orElseStr content.url ""),
   some (orElseStr content.title ""),
   some (orElseStr content.bodyText ""), some "", some [],
   some t, none, some 0⟩

/-- Synchronous prefix of `processTabContent(tabId, content)` up to its
first `await`: the falsy-`tabId` guard, the record-creation branch, and
the empty-`bodyText` early return; when the body text is truthy the run
suspends at `generateTabNote`.  The defensive reload branch (`if
(!tabsStore || typeof tabsStore !== "object")`) is a no-op here because
the configuration always holds a store object. -/
def startProcessTab (c : Config) (tabId : Nat) (content : Content) (t : Nat) : Config :=
  if tabId = 0 then c
  else
    let c1 :=
      match lookupTab c.tabsStore tabId with
      | some _ => c
      | none =>
        { c with tabsStore := setTab c.tabsStore tabId (freshRecord tabId content t) }
    if truthyStr content.bodyText then
      { c1 with tasks := c1.tasks ++ [Task.noteWait tabId content] }
    else c1

/-- Resume one suspended continuation (already removed from the pool) at
time `t`.  Each case is the synchronous segment of `processTabContent`
that follows the corresponding `await`:

* `noteWait`: the summary write `Object.assign(tabsStore[tabId],
  { tabNote: note, lastUpdated: Date.now() })` followed by the
  `saveTabs` call; when the record was deleted meanwhile,
  `Object.assign(undefined, ...)` throws a `TypeError` that the
  surrounding `catch` swallows, so the run dies without effects.
* `afterSave`: the summary-only notification, the spawn of the tag
  continuation, and the reconfirm-existence block, which recreates a
  vanished record as the empty object literal; the block that follows
  always raises a caught `ReferenceError` on the unbound `tags`
  identifier, so the combined write, its `saveTabs` and the `fullUpdate`
  notification never run.
* `tagsWait`: the existence check (a genuine no-op when the record is
  gone), the field writes of `tags` and `lastUpdated`, and the
  `saveTabs` call.
* `tagsSaved`: the tags-only notification. -/
def runTask (env : Env) (c : Config) (task : Task) (t : Nat) : Config :=
  match task with
  | .noteWait tabId content =>
    let note := generateTabNote env (content.bodyText.getD "")
    match lookupTab c.tabsStore tabId with
    | none => c
    | some r =>
      let store1 := setTab c.tabsStore tabId
        { r with tabNote := some note, lastUpdated := some t }
      { c with tabsStore := store1, saved := store1,
               tasks := c.tasks ++ [Task.afterSave tabId note] }
  | .afterSave tabId note =>
    let c1 := { c with msgs := c.msgs ++ [Msg.summaryUpdate tabId note],
                       tasks := c.tasks ++ [Task.tagsWait tabId note] }
    match lookupTab c1.tabsStore tabId with
    | some _ => c1
    | none => { c1 with tabsStore := setTab c1.tabsStore tabId emptyRecord }
  | .tagsWait tabId note =>
    let tags := generateSmartTags env note
    match lookupTab c.tabsStore tabId with
    | none => c
    | some r =>
      let store1 := setTab c.tabsStore tabId
        { r with tags := some tags, lastUpdated := some t }
      { c with tabsStore := store1, saved := store1,
               tasks := c.tasks ++ [Task.tagsSaved tabId tags] }
  | .tagsSaved tabId tags =>
    { c with msgs := c.msgs ++ [Msg.tagsUpdate tabId tags] }

/-- The `chrome.tabs.onRemoved` listener: delete the record when
present, write the store and notify. -/
def removeTabHandler (c : Config) (tabId : Nat) : Config :=
  match lookupTab c.tabsStore tabId with
  | none => c
  | some _ =>
    let store1 := eraseTab c.tabsStore tabId
    { c with tabsStore := store1, saved := store1,
             msgs := c.msgs ++ [Msg.dataUpdated] }

/-- The record created by the `PAGE_CONTENT` branch of the message
listener when none exists: the `"Generating..."` placeholder summary,
with `url`, `title` and `bodyText` stored exactly as received (no
defaults). -/
def capturedRecord (tabId : Nat) (data : Content) (t : Nat) : TabRecord :=
  ⟨some tabId, data.url, data.title, data.bodyText,
   some "Generating...", some [], some t, none, some 0⟩

/-- The `PAGE_CONTENT` branch of the message listener: create the record
when absent, then invoke `processTabContent` with the captured data.  A
falsy sender tab id skips the branch. -/
def pageContentHandler (c : Config) (tabId : Nat) (data : Content) (t : Nat) : Config :=
  if tabId = 0 then c
  else
    let c1 :=
      match lookupTab c.tabsStore tabId with
      | some _ => c
      | none =>
        { c with tabsStore := setTab c.tabsStore tabId (capturedRecord tabId data t) }
    startProcessTab c1 tabId data t

/-- The `TRIGGER_MODEL_DOWNLOAD` branch: when
`createAndMonitorSummarizer` succeeds it has already emitted
`MODEL_READY` through its callback, and the handler re-invokes
`processTabContent(parseInt(id), { bodyText: rawText })` for every
stored record whose `rawText` is truthy; on failure nothing happens. -/
def triggerDownloadHandler (c : Config) (success : Bool) (t : Nat) : Config :=
  if success then
    let c1 := { c with msgs := c.msgs ++ [Msg.modelReady] }
    c1.tabsStore.foldl
      (fun acc kv =>
        if truthyStr kv.2.rawText then
          startProcessTab acc kv.1 ⟨none, none, kv.2.rawText⟩ t
        else acc) c1
  else c

/-- One atomic transition of the interleaved execution: a capture
message, a tab removal, the resumption of the continuation at position
`i` of the pool (removed before it runs; out-of-range indices are
no-ops), or the model-download completion. -/
inductive Event where
  | pageContent (tabId : Nat) (data : Content) (t : Nat)
  | tabRemoved (tabId : Nat)
  | taskStep (i : Nat) (t : Nat)
  | triggerDownload (success : Bool) (t : Nat)
deriving Repr, DecidableEq

/-- The `Date.now()` value observed by an event. -/
def eventTime : Event → Nat
  | .pageContent _ _ t => t
  | .tabRemoved _ => 0
  | .taskStep _ t => t
  | .triggerDownload _ t => t

/-- Resume the continuation stored at index `i` of the pool. -/
def taskStepHandler (env : Env) (c : Config) (i : Nat) (t : Nat) : Config :=
  match c.tasks.get? i with
  | none => c
  | some task => runTask env { c with tasks := c.tasks.eraseIdx i } task t

/-- Apply one event to the configuration. -/
def applyEvent (env : Env) (c : Config) : Event → Config
  | .pageContent tabId data t => pageContentHandler c tabId data t
  | .tabRemoved tabId => removeTabHandler c tabId
  | .taskStep i t => taskStepHandler env c i t
  | .triggerDownload success t => triggerDownloadHandler c success t

/-- Run a schedule of events from a starting configuration. -/
def runEvents (env : Env) (c : Config) (es : List Event) : Config :=
  es.foldl (applyEvent env) c

/-- A backend with a working summarizer and no prompt instance. -/
def envSumOnly : Env :=
  ⟨some (fun _ => .ok (.strVal "A concise summary of the captured page.")),
   none, "available", fun _ => none⟩

/-- A backend whose summarize requests reject while the prompt instance
works and answers with the category string `"News"`. -/
def envSumErrPromptNews : Env :=
  ⟨some (fun _ => .err), some (fun _ => .ok (.strVal "News")),
   "available", fun _ => none⟩

/-- A wholly unavailable backend. -/
def envUnavailable : Env :=
  ⟨none, none, "downloadable", fun _ => none⟩

/-- A 120-character body text, above the 100-character threshold. -/
def longBodyA : String := (List.replicate 120 'a').asString

/-- A second 130-character body text for the navigation scenario. -/
def longBodyB : String := (List.replicate 130 'b').asString

/-- Captured content of the first page of the scenarios. -/
def contentA : Content :=
  ⟨some "https://a.example/article", some "Page A", some longBodyA⟩

/-- Captured content of the page visited after a navigation. -/
def contentB : Content :=
  ⟨some "https://b.example/other", some "Page B", some longBodyB⟩

/-- A capture with an empty body text. -/
def contentEmpty : Content :=
  ⟨some "https://e.example/", some "Empty page", some ""⟩

/-- A capture whose body text is below the length threshold. -/
def contentShort : Content :=
  ⟨some "https://s.example/", some "Short page", some "short"⟩

/-- Schedule for the record-resurrection race: the tab is removed while
its run is parked at the first `saveTabs`; the remaining continuations
then run to completion. -/
def esResurrect : List Event :=
  [.pageContent 1 contentA 10, .taskStep 0 11, .tabRemoved 1,
   .taskStep 0 12, .taskStep 0 13, .taskStep 0 14]

/-- Prefix of `esResurrect` ending right after the summary write. -/
def esResurrectPre : List Event :=
  [.pageContent 1 contentA 10, .taskStep 0 11]

/-- Prefix of `esResurrect` ending right after the resurrection step. -/
def esResurrectMid : List Event :=
  [.pageContent 1 contentA 10, .taskStep 0 11, .tabRemoved 1,
   .taskStep 0 12]

/-- Schedule delivering a capture with empty body text for tab 7. -/
def esEmptyBody : List Event := [.pageContent 7 contentEmpty 5]

/-- Schedule running a short-body capture for tab 7 to completion. -/
def esShortBody : List Event :=
  [.pageContent 7 contentShort 1, .taskStep 0 2, .taskStep 0 3,
   .taskStep 0 4, .taskStep 0 5]

/-- Schedule running a long-body capture for tab 5 to completion. -/
def esFailingBackend : List Event :=
  [.pageContent 5 contentA 1, .taskStep 0 2, .taskStep 0 3,
   .taskStep 0 4, .taskStep 0 5]

/-- Schedule running two captures for tab 1 to completion in sequence:
the first page, then the page reached by a navigation. -/
def esNavigate : List Event :=
  [.pageContent 1 contentA 1, .taskStep 0 2, .taskStep 0 3,
   .taskStep 0 4, .taskStep 0 5,
   .pageContent 1 contentB 6, .taskStep 0 7, .taskStep 0 8,
   .taskStep 0 9, .taskStep 0 10]

/-- The continuation spawned by the model-download catch-up loop for one
store binding: none for a falsy tab id (the `!tabId` guard) or falsy
cached raw text, otherwise the run parked at `generateTabNote` with a
`bodyText`-only content object. -/
def catchupSpawn (kv : Nat × TabRecord) : Option Task :=
  if kv.1 = 0 then none
  else if truthyStr kv.2.rawText then
    some (Task.noteWait kv.1 ⟨none, none, kv.2.rawText⟩)
  else none

/-- Whether a continuation is a pipeline run for tab `k` parked at
`generateTabNote`. -/
def isNoteWaitFor (k : Nat) : Task → Bool
  | .noteWait k0 _ => k0 == k
  | _ => false

/-- Number of pending pipeline runs for tab `k` parked at
`generateTabNote`. -/
def countNoteWait (k : Nat) (tasks : List Task) : Nat :=
  (tasks.filter (isNoteWaitFor k)).length

/-- Schedules considered by the placeholder theorem: every capture
message carries truthy body text. -/
def eventNonEmptyBody : Event → Bool
  | .pageContent _ d _ => truthyStr d.bodyText
  | _ => true

/-- Invariant tying the `"Generating..."` placeholder to a pending run:
the store has no duplicate keys, and every stored record whose summary
is still the placeholder has a run for its tab parked at
`generateTabNote`. -/
def Inv (c : Config) : Prop :=
  (c.tabsStore.map Prod.fst).Nodup ∧
  ∀ kv ∈ c.tabsStore, kv.2.tabNote = some "Generating..." →
    ∃ d, Task.noteWait kv.1 d ∈ c.tasks

/-- A fully populated record for tab 1 with cached raw text. -/
def recWithRaw : TabRecord :=
  ⟨some 1, some "https://a.example/article", some "Page A", some "cached body text",
   some "an old note", some [], some 1, none, some 0⟩

/-- A record for tab 2 whose cached raw text is empty (falsy). -/
def recNoRaw : TabRecord :=
  ⟨some 2, some "https://b.example/other", some "Page B", some "",
   some "another note", some [], some 2, none, some 0⟩

/-- A record whose note and title mention Lean, for the search witness. -/
def recSearch : TabRecord :=
  ⟨some 3, some "https://l.example/", some "Lean page", some "",
   some "Notes about Lean proofs", some ["Study"], some 3, none, some 0⟩

/-- A worker state holding one record with cached raw text and one
without. -/
def cfgCatchup : Config := ⟨[(1, recWithRaw), (2, recNoRaw)], [], [], []⟩

/-- A quiescent worker state holding the record of tab 1. -/
def cfgOneTab : Config := ⟨[(1, recWithRaw)], [], [], []⟩

theorem lookupTab_eq_none_of_not_mem {s : Store} {k : Nat}
    (h : k ∉ s.map Prod.fst) : lookupTab s k = none := by
  induction s with
  | nil => rfl
  | cons kv rest ih =>
    obtain ⟨k0, r0⟩ := kv
    simp only [List.map_cons, List.mem_cons] at h
    push_neg at h
    simp [lookupTab, Ne.symm h.1, ih h.2]

theorem lookupTab_setTab_self (s : Store) (k : Nat) (r : TabRecord) :
    lookupTab (setTab s k r) k = some r := by
  induction s with
  | nil => simp [setTab, lookupTab]
  | cons kv rest ih =>
    obtain ⟨k0, r0⟩ := kv
    by_cases h : k0 = k
    · subst h; simp [setTab, lookupTab]
    · simp [setTab, lookupTab, h, ih]

theorem lookupTab_setTab_ne (s : Store) {k k' : Nat} (h : k' ≠ k) (r : TabRecord) :
    lookupTab (setTab s k r) k' = lookupTab s k' := by
  induction s with
  | nil => simp [setTab, lookupTab, Ne.symm h]
  | cons kv rest ih =>
    obtain ⟨k0, r0⟩ := kv
    by_cases hk : k0 = k
    · subst hk; simp [setTab, lookupTab, Ne.symm h]
    · simp [setTab, lookupTab, hk, ih]

theorem lookupTab_eraseTab_ne (s : Store) {k k' : Nat} (h : k' ≠ k) :
    lookupTab (eraseTab s k) k' = lookupTab s k' := by
  induction s with
  | nil => rfl
  | cons kv rest ih =>
    obtain ⟨k0, r0⟩ := kv
    by_cases hk : k0 = k
    · subst hk; simp [eraseTab, lookupTab, Ne.symm h]
    · simp [eraseTab, lookupTab, hk, ih]

theorem lookupTab_eraseTab_self {s : Store} (k : Nat)
    (hnd : (s.map Prod.fst).Nodup) : lookupTab (eraseTab s k) k = none := by
  induction s with
  | nil => rfl
  | cons kv rest ih =>
    obtain ⟨k0, r0⟩ := kv
    simp only [List.map_cons, List.nodup_cons] at hnd
    by_cases hk : k0 = k
    · subst hk
      simpa [eraseTab] using lookupTab_eq_none_of_not_mem hnd.1
    · simp [eraseTab, lookupTab, hk, ih hnd.2]

theorem mem_eraseIdx_of_ne {α : Type} {l : List α} :
    ∀ {i : Nat} {a b : α}, l.get? i = some b → a ∈ l → a ≠ b →
      a ∈ l.eraseIdx i := by
  induction l with
  | nil => intro i a b h; simp [List.get?] at h
  | cons x xs ih =>
    intro i a b hget hmem hne
    cases i with
    | zero =>
      simp only [List.get?] at hget
      obtain rfl : x = b := by injection hget
      rcases List.mem_cons.mp hmem with rfl | hxs
      · exact absurd rfl hne
      · simpa [List.eraseIdx] using hxs
    | succ j =>
      simp only [List.get?] at hget
      rcases List.mem_cons.mp hmem with rfl | hxs
      · simp [List.eraseIdx]
      · simp only [List.eraseIdx, List.mem_cons]
        exact Or.inr (ih hget hxs hne)

theorem mem_of_lookupTab_eq_some {s : Store} {k : Nat} {r : TabRecord}
    (h : lookupTab s k = some r) : (k, r) ∈ s := by
  induction s with
  | nil => simp [lookupTab] at h
  | cons kv rest ih =>
    obtain ⟨k0, r0⟩ := kv
    by_cases hk : k0 = k
    · subst hk
      simp only [lookupTab, if_pos rfl] at h
      obtain rfl : r0 = r := by injection h
      exact List.mem_cons_self _ _
    · simp only [lookupTab, if_neg hk] at h
      exact List.mem_cons_of_mem _ (ih h)

theorem lookupTab_eq_some_of_mem_nodup {s : Store} {k : Nat} {r : TabRecord}
    (hnd : (s.map Prod.fst).Nodup) (h : (k, r) ∈ s) : lookupTab s k = some r := by
  induction s with
  | nil => simp at h
  | cons kv rest ih =>
    obtain ⟨k0, r0⟩ := kv
    simp only [List.map_cons, List.nodup_cons] at hnd
    rcases List.mem_cons.mp h with heq | hrest
    · rw [Prod.ext_iff] at heq
      obtain ⟨h1, h2⟩ := heq
      subst h1; subst h2
      simp [lookupTab]
    · have hk : k0 ≠ k := by
        intro hkk
        subst hkk
        exact hnd.1 (List.mem_map_of_mem Prod.fst hrest)
      simp [lookupTab, hk, ih hnd.2 hrest]

theorem not_mem_keys_of_lookupTab_eq_none {s : Store} {k : Nat}
    (h : lookupTab s k = none) : k ∉ s.map Prod.fst := by
  induction s with
  | nil => simp
  | cons kv rest ih =>
    obtain ⟨k0, r0⟩ := kv
    by_cases hk : k0 = k
    · subst hk; simp [lookupTab] at h
    · simp only [lookupTab, if_neg hk] at h
      simp [Ne.symm hk, ih h]

theorem mem_setTab {s : Store} {k : Nat} {r : TabRecord}
    (hnd : (s.map Prod.fst).Nodup) {kv : Nat × TabRecord}
    (h : kv ∈ setTab s k r) : kv = (k, r) ∨ (kv ∈ s ∧ kv.1 ≠ k) := by
  induction s with
  | nil =>
    simp only [setTab, List.mem_singleton] at h
    exact Or.inl h
  | cons kv0 rest ih =>
    obtain ⟨k0, r0⟩ := kv0
    simp only [List.map_cons, List.nodup_cons] at hnd
    by_cases hk : k0 = k
    · subst hk
      simp only [setTab, if_true, eq_self_iff_true, List.mem_cons] at h
      rcases h with heq | hrest
      · exact Or.inl heq
      · refine Or.inr ⟨List.mem_cons_of_mem _ hrest, ?_⟩
        intro hkk
        exact hnd.1 (hkk ▸ List.mem_map_of_mem Prod.fst hrest)
    · simp only [setTab, if_neg hk, List.mem_cons] at h
      rcases h with heq | hrest
      · refine Or.inr ⟨?_, ?_⟩
        · rw [heq]; exact List.mem_cons_self _ _
        · rw [heq]; exact hk
      · rcases ih hnd.2 hrest with heq | ⟨hmem, hne⟩
        · exact Or.inl heq
        · exact Or.inr ⟨List.mem_cons_of_mem _ hmem, hne⟩

theorem keys_setTab (s : Store) (k : Nat) (r : TabRecord) :
    (setTab s k r).map Prod.fst =
      if k ∈ s.map Prod.fst then s.map Prod.fst else s.map Prod.fst ++ [k] := by
  induction s with
  | nil => simp [setTab]
  | cons kv rest ih =>
    obtain ⟨k0, r0⟩ := kv
    by_cases hk : k0 = k
    · subst hk; simp [setTab]
    · simp only [setTab, if_neg hk, List.map_cons, ih, List.mem_cons]
      by_cases hmem : k ∈ rest.map Prod.fst
      · simp [hmem, Ne.symm hk]
      · simp [hmem, Ne.symm hk]

theorem nodup_keys_setTab {s : Store} (k : Nat) (r : TabRecord)
    (hnd : (s.map Prod.fst).Nodup) : ((setTab s k r).map Prod.fst).Nodup := by
  rw [keys_setTab]
  by_cases hmem : k ∈ s.map Prod.fst
  · simpa [hmem] using hnd
  · simp only [hmem, if_false]
    refine List.nodup_append.mpr ⟨hnd, List.nodup_singleton _, ?_⟩
    intro a ha hb
    rw [List.mem_singleton] at hb
    exact hmem (hb ▸ ha)

theorem mem_eraseTab {s : Store} {k : Nat} {kv : Nat × TabRecord}
    (h : kv ∈ eraseTab s k) : kv ∈ s := by
  induction s with
  | nil => exact h
  | cons kv0 rest ih =>
    obtain ⟨k0, r0⟩ := kv0
    by_cases hk : k0 = k
    · subst hk
      simp only [eraseTab, if_true, eq_self_iff_true] at h
      exact List.mem_cons_of_mem _ h
    · simp only [eraseTab, if_neg hk, List.mem_cons] at h
      rcases h with heq | hrest
      · rw [heq]; exact List.mem_cons_self _ _
      · exact List.mem_cons_of_mem _ (ih hrest)

theorem nodup_keys_eraseTab {s : Store} (k : Nat)
    (hnd : (s.map Prod.fst).Nodup) : ((eraseTab s k).map Prod.fst).Nodup := by
  induction s with
  | nil => exact hnd
  | cons kv0 rest ih =>
    obtain ⟨k0, r0⟩ := kv0
    simp only [List.map_cons, List.nodup_cons] at hnd
    by_cases hk : k0 = k
    · subst hk; simpa [eraseTab] using hnd.2
    · simp only [eraseTab, if_neg hk, List.map_cons, List.nodup_cons]
      refine ⟨fun hmem => hnd.1 ?_, ih hnd.2⟩
      obtain ⟨kv, hkv, hfst⟩ := List.mem_map.mp hmem
      exact hfst ▸ List.mem_map_of_mem Prod.fst (mem_eraseTab hkv)

theorem startProcessTab_zero (c : Config) (d : Content) (t : Nat) :
    startProcessTab c 0 d t = c := by
  simp [startProcessTab]

theorem startProcessTab_some_truthy {c : Config} {k : Nat} {r : TabRecord} {d : Content}
    (hk : k ≠ 0) (h : lookupTab c.tabsStore k = some r)
    (hd : truthyStr d.bodyText = true) (t : Nat) :
    startProcessTab c k d t = { c with tasks := c.tasks ++ [Task.noteWait k d] } := by
  simp [startProcessTab, hk, h, hd]

theorem startProcessTab_some_falsy {c : Config} {k : Nat} {r : TabRecord} {d : Content}
    (hk : k ≠ 0) (h : lookupTab c.tabsStore k = some r)
    (hd : truthyStr d.bodyText = false) (t : Nat) :
    startProcessTab c k d t = c := by
  simp [startProcessTab, hk, h, hd]

theorem startProcessTab_none_truthy {c : Config} {k : Nat} {d : Content}
    (hk : k ≠ 0) (h : lookupTab c.tabsStore k = none)
    (hd : truthyStr d.bodyText = true) (t : Nat) :
    startProcessTab c k d t =
      { c with tabsStore := setTab c.tabsStore k (freshRecord k d t),
               tasks := c.tasks ++ [Task.noteWait k d] } := by
  simp [startProcessTab, hk, h, hd]

theorem startProcessTab_none_falsy {c : Config} {k : Nat} {d : Content}
    (hk : k ≠ 0) (h : lookupTab c.tabsStore k = none)
    (hd : truthyStr d.bodyText = false) (t : Nat) :
    startProcessTab c k d t =
      { c with tabsStore := setTab c.tabsStore k (freshRecord k d t) } := by
  simp [startProcessTab, hk, h, hd]

theorem runTask_noteWait_none (env : Env) {c : Config} {k : Nat}
    (h : lookupTab c.tabsStore k = none) (d : Content) (t : Nat) :
    runTask env c (.noteWait k d) t = c := by
  simp [runTask, h]

theorem runTask_noteWait_some (env : Env) {c : Config} {k : Nat} {r : TabRecord}
    (h : lookupTab c.tabsStore k = some r) (d : Content) (t : Nat) :
    runTask env c (.noteWait k d) t =
      { c with
        tabsStore := setTab c.tabsStore k
          { r with tabNote := some (generateTabNote env (d.bodyText.getD "")),
                   lastUpdated := some t },
        saved := setTab c.tabsStore k
          { r with tabNote := some (generateTabNote env (d.bodyText.getD "")),
                   lastUpdated := some t },
        tasks := c.tasks ++
          [Task.afterSave k (generateTabNote env (d.bodyText.getD ""))] } := by
  simp [runTask, h]

theorem runTask_afterSave_some (env : Env) {c : Config} {k : Nat} {r : TabRecord}
    (h : lookupTab c.tabsStore k = some r) (note : String) (t : Nat) :
    runTask env c (.afterSave k note) t =
      { c with msgs := c.msgs ++ [Msg.summaryUpdate k note],
               tasks := c.tasks ++ [Task.tagsWait k note] } := by
  simp [runTask, h]

theorem runTask_afterSave_none (env : Env) {c : Config} {k : Nat}
    (h : lookupTab c.tabsStore k = none) (note : String) (t : Nat) :
    runTask env c (.afterSave k note) t =
      { c with tabsStore := setTab c.tabsStore k emptyRecord,
               msgs := c.msgs ++ [Msg.summaryUpdate k note],
               tasks := c.tasks ++ [Task.tagsWait k note] } := by
  simp [runTask, h]

theorem runTask_tagsWait_none (env : Env) {c : Config} {k : Nat}
    (h : lookupTab c.tabsStore k = none) (note : String) (t : Nat) :
    runTask env c (.tagsWait k note) t = c := by
  simp [runTask, h]

theorem runTask_tagsWait_some (env : Env) {c : Config} {k : Nat} {r : TabRecord}
    (h : lookupTab c.tabsStore k = some r) (note : String) (t : Nat) :
    runTask env c (.tagsWait k note) t =
      { c with
        tabsStore := setTab c.tabsStore k
          { r with tags := some (generateSmartTags env note), lastUpdated := some t },
        saved := setTab c.tabsStore k
          { r with tags := some (generateSmartTags env note), lastUpdated := some t },
        tasks := c.tasks ++ [Task.tagsSaved k (generateSmartTags env note)] } := by
  simp [runTask, h]

theorem runTask_tagsSaved (env : Env) (c : Config) (k : Nat)
    (tags : List String) (t : Nat) :
    runTask env c (.tagsSaved k tags) t =
      { c with msgs := c.msgs ++ [Msg.tagsUpdate k tags] } := by
  simp [runTask]

theorem taskStepHandler_oob (env : Env) {c : Config} {i : Nat}
    (h : c.tasks.get? i = none) (t : Nat) :
    taskStepHandler env c i t = c := by
  rw [List.get?_eq_getElem?] at h
  simp [taskStepHandler, h]

theorem taskStepHandler_get (env : Env) {c : Config} {i : Nat} {task : Task}
    (h : c.tasks.get? i = some task) (t : Nat) :
    taskStepHandler env c i t =
      runTask env { c with tasks := c.tasks.eraseIdx i } task t := by
  rw [List.get?_eq_getElem?] at h
  simp [taskStepHandler, h]

theorem pageContentHandler_zero (c : Config) (d : Content) (t : Nat) :
    pageContentHandler c 0 d t = c := by
  simp [pageContentHandler]

theorem pageContentHandler_existing {c : Config} {k : Nat} {r : TabRecord}
    (hk : k ≠ 0) (h : lookupTab c.tabsStore k = some r) (d : Content) (t : Nat) :
    pageContentHandler c k d t = startProcessTab c k d t := by
  simp [pageContentHandler, hk, h]

theorem pageContentHandler_new {c : Config} {k : Nat}
    (hk : k ≠ 0) (h : lookupTab c.tabsStore k = none) (d : Content) (t : Nat) :
    pageContentHandler c k d t =
      startProcessTab
        { c with tabsStore := setTab c.tabsStore k (capturedRecord k d t) }
        k d t := by
  simp [pageContentHandler, hk, h]

theorem removeTabHandler_absent {c : Config} {k : Nat}
    (h : lookupTab c.tabsStore k = none) :
    removeTabHandler c k = c := by
  simp [removeTabHandler, h]

theorem removeTabHandler_present {c : Config} {k : Nat} {r : TabRecord}
    (h : lookupTab c.tabsStore k = some r) :
    removeTabHandler c k =
      { c with tabsStore := eraseTab c.tabsStore k,
               saved := eraseTab c.tabsStore k,
               msgs := c.msgs ++ [Msg.dataUpdated] } := by
  simp [removeTabHandler, h]

theorem triggerDownloadHandler_failure (c : Config) (t : Nat) :
    triggerDownloadHandler c false t = c := by
  simp [triggerDownloadHandler]

theorem runEvents_nil (env : Env) (c : Config) : runEvents env c [] = c := rfl

theorem runEvents_cons (env : Env) (c : Config) (e : Event) (es : List Event) :
    runEvents env c (e :: es) = runEvents env (applyEvent env c e) es := rfl

/-- Symbolic execution of one complete pipeline run: from a
configuration whose only pending continuation is the run parked at
`generateTabNote` and whose record is present, the four resumption
steps produce the summary write, the summary notification, the tag
write and the tag notification, and leave no continuation pending. -/
theorem singleRunSteps (env : Env) (c : Config) (k : Nat) (d : Content) (r : TabRecord)
    (t1 t2 t3 t4 : Nat) (hr : lookupTab c.tabsStore k = some r)
    (ht : c.tasks = [Task.noteWait k d]) :
    runEvents env c [.taskStep 0 t1, .taskStep 0 t2, .taskStep 0 t3, .taskStep 0 t4] =
      { tabsStore := setTab
          (setTab c.tabsStore k
            { r with tabNote := some (generateTabNote env (d.bodyText.getD "")),
                     lastUpdated := some t1 }) k
          { r with tabNote := some (generateTabNote env (d.bodyText.getD "")),
                   tags := some (generateSmartTags env (generateTabNote env (d.bodyText.getD ""))),
                   lastUpdated := some t3 },
        saved := setTab
          (setTab c.tabsStore k
            { r with tabNote := some (generateTabNote env (d.bodyText.getD "")),
                     lastUpdated := some t1 }) k
          { r with tabNote := some (generateTabNote env (d.bodyText.getD "")),
                   tags := some (generateSmartTags env (generateTabNote env (d.bodyText.getD ""))),
                   lastUpdated := some t3 },
        msgs := c.msgs ++
          [Msg.summaryUpdate k (generateTabNote env (d.bodyText.getD "")),
           Msg.tagsUpdate k
             (generateSmartTags env (generateTabNote env (d.bodyText.getD "")))],
        tasks := [] } := by
  have h1 : applyEvent env c (.taskStep 0 t1) =
      { c with
        tabsStore := setTab c.tabsStore k
          { r with tabNote := some (generateTabNote env (d.bodyText.getD "")),
                   lastUpdated := some t1 },
        saved := setTab c.tabsStore k
          { r with tabNote := some (generateTabNote env (d.bodyText.getD "")),
                   lastUpdated := some t1 },
        tasks := [Task.afterSave k (generateTabNote env (d.bodyText.getD ""))] } := by
    show taskStepHandler env c 0 t1 = _
    rw [taskStepHandler_get env (show c.tasks.get? 0 = some (Task.noteWait k d) by
      rw [ht]; rfl) t1]
    rw [show ({ c with tasks := c.tasks.eraseIdx 0 } : Config) =
      { c with tasks := [] } by rw [ht]; rfl]
    rw [runTask_noteWait_some env (show lookupTab ({ c with tasks := ([] : List Task) } : Config).tabsStore k = some r from hr) d t1]
    simp
  rw [runEvents_cons, h1]
  have h2 : ∀ cc : Config, cc.tasks = [Task.afterSave k (generateTabNote env (d.bodyText.getD ""))] →
      lookupTab cc.tabsStore k = some { r with tabNote := some (generateTabNote env (d.bodyText.getD "")), lastUpdated := some t1 } →
      applyEvent env cc (.taskStep 0 t2) =
        { cc with
          msgs := cc.msgs ++ [Msg.summaryUpdate k (generateTabNote env (d.bodyText.getD ""))],
          tasks := [Task.tagsWait k (generateTabNote env (d.bodyText.getD ""))] } := by
    intro cc hcct hccr
    show taskStepHandler env cc 0 t2 = _
    rw [taskStepHandler_get env (show cc.tasks.get? 0 = some (Task.afterSave k (generateTabNote env (d.bodyText.getD ""))) by rw [hcct]; rfl) t2]
    rw [show ({ cc with tasks := cc.tasks.eraseIdx 0 } : Config) =
      { cc with tasks := [] } by rw [hcct]; rfl]
    rw [runTask_afterSave_some env (show lookupTab ({ cc with tasks := ([] : List Task) } : Config).tabsStore k = some _ from hccr) _ t2]
    simp
  rw [runEvents_cons, h2 _ rfl (by simp [lookupTab_setTab_self])]
  have h3 : ∀ cc : Config, cc.tasks = [Task.tagsWait k (generateTabNote env (d.bodyText.getD ""))] →
      lookupTab cc.tabsStore k = some { r with tabNote := some (generateTabNote env (d.bodyText.getD "")), lastUpdated := some t1 } →
      applyEvent env cc (.taskStep 0 t3) =
        { cc with
          tabsStore := setTab cc.tabsStore k
            { r with tabNote := some (generateTabNote env (d.bodyText.getD "")),
                     tags := some (generateSmartTags env (generateTabNote env (d.bodyText.getD ""))),
                     lastUpdated := some t3 },
          saved := setTab cc.tabsStore k
            { r with tabNote := some (generateTabNote env (d.bodyText.getD "")),
                     tags := some (generateSmartTags env (generateTabNote env (d.bodyText.getD ""))),
                     lastUpdated := some t3 },
          tasks := [Task.tagsSaved k (generateSmartTags env (generateTabNote env (d.bodyText.getD "")))] } := by
    intro cc hcct hccr
    show taskStepHandler env cc 0 t3 = _
    rw [taskStepHandler_get env (show cc.tasks.get? 0 = some (Task.tagsWait k (generateTabNote env (d.bodyText.getD ""))) by rw [hcct]; rfl) t3]
    rw [show ({ cc with tasks := cc.tasks.eraseIdx 0 } : Config) =
      { cc with tasks := [] } by rw [hcct]; rfl]
    rw [runTask_tagsWait_some env (show lookupTab ({ cc with tasks := ([] : List Task) } : Config).tabsStore k = some _ from hccr) _ t3]
    simp
  rw [runEvents_cons, h3 _ rfl (by simp [lookupTab_setTab_self])]
  rw [runEvents_cons]
  have h4 : ∀ cc : Config, cc.tasks = [Task.tagsSaved k (generateSmartTags env (generateTabNote env (d.bodyText.getD "")))] →
      applyEvent env cc (.taskStep 0 t4) =
        { cc with
          msgs := cc.msgs ++ [Msg.tagsUpdate k (generateSmartTags env (generateTabNote env (d.bodyText.getD "")))],
          tasks := [] } := by
    intro cc hcct
    show taskStepHandler env cc 0 t4 = _
    rw [taskStepHandler_get env (show cc.tasks.get? 0 = some (Task.tagsSaved k (generateSmartTags env (generateTabNote env (d.bodyText.getD "")))) by rw [hcct]; rfl) t4]
    rw [show ({ cc with tasks := cc.tasks.eraseIdx 0 } : Config) =
      { cc with tasks := [] } by rw [hcct]; rfl]
    rw [runTask_tagsSaved]
  rw [h4 _ rfl, runEvents_nil]
  simp

theorem startProcessTab_tabsStore_of_some {c : Config} {k : Nat} {r : TabRecord}
    (h : lookupTab c.tabsStore k = some r) (d : Content) (t : Nat) :
    (startProcessTab c k d t).tabsStore = c.tabsStore := by
  by_cases hk : k = 0
  · subst hk; rw [startProcessTab_zero]
  · cases htr : truthyStr d.bodyText
    · rw [startProcessTab_some_falsy hk h htr]
    · rw [startProcessTab_some_truthy hk h htr]

theorem startProcessTab_lookup_preserve {c : Config} {k : Nat} {r : TabRecord}
    (h : lookupTab c.tabsStore k = some r) (k0 : Nat) (d : Content) (t : Nat) :
    lookupTab (startProcessTab c k0 d t).tabsStore k = some r := by
  by_cases hk0 : k0 = 0
  · subst hk0; rw [startProcessTab_zero]; exact h
  · cases h0 : lookupTab c.tabsStore k0 with
    | some r0 => rw [startProcessTab_tabsStore_of_some h0]; exact h
    | none =>
      have hkk : k ≠ k0 := by
        intro he; subst he; rw [h] at h0; cases h0
      cases htr : truthyStr d.bodyText
      · rw [startProcessTab_none_falsy hk0 h0 htr]
        simpa [lookupTab_setTab_ne _ hkk] using h
      · rw [startProcessTab_none_truthy hk0 h0 htr]
        simpa [lookupTab_setTab_ne _ hkk] using h

theorem catchupFold (t : Nat) :
    ∀ (entries : List (Nat × TabRecord)) (acc : Config),
      (∀ kv ∈ entries, lookupTab acc.tabsStore kv.1 = some kv.2) →
      (entries.foldl (fun acc kv =>
          if truthyStr kv.2.rawText then
            startProcessTab acc kv.1 ⟨none, none, kv.2.rawText⟩ t
          else acc) acc) =
        { acc with tasks := acc.tasks ++ entries.filterMap catchupSpawn } := by
  intro entries
  induction entries with
  | nil => intro acc _; simp
  | cons kv rest ih =>
    intro acc h
    obtain ⟨k0, r0⟩ := kv
    have hk0 : lookupTab acc.tabsStore k0 = some r0 := h _ (List.mem_cons_self _ _)
    simp only [List.foldl_cons]
    cases htr : truthyStr r0.rawText
    · rw [if_neg (by simp [htr])]
      rw [ih acc (fun kv hkv => h kv (List.mem_cons_of_mem _ hkv))]
      simp [catchupSpawn, htr]
    · rw [if_pos (by simp [htr])]
      by_cases hk00 : k0 = 0
      · subst hk00
        rw [startProcessTab_zero]
        rw [ih acc (fun kv hkv => h kv (List.mem_cons_of_mem _ hkv))]
        simp [catchupSpawn]
      · rw [startProcessTab_some_truthy hk00 hk0
          (show truthyStr (Content.mk none none r0.rawText).bodyText = true from htr) t]
        rw [ih { acc with tasks := acc.tasks ++
              [Task.noteWait k0 (Content.mk none none r0.rawText)] }
            (fun kv hkv => h kv (List.mem_cons_of_mem _ hkv))]
        simp [catchupSpawn, htr, hk00]

theorem triggerDownload_true (c : Config) (t : Nat)
    (hnd : (c.tabsStore.map Prod.fst).Nodup) :
    triggerDownloadHandler c true t =
      { c with msgs := c.msgs ++ [Msg.modelReady],
               tasks := c.tasks ++ c.tabsStore.filterMap catchupSpawn } := by
  have h1 : triggerDownloadHandler c true t =
      (c.tabsStore.foldl (fun acc kv =>
        if truthyStr kv.2.rawText then
          startProcessTab acc kv.1 ⟨none, none, kv.2.rawText⟩ t
        else acc) { c with msgs := c.msgs ++ [Msg.modelReady] }) := by
    simp [triggerDownloadHandler]
  rw [h1, catchupFold t c.tabsStore { c with msgs := c.msgs ++ [Msg.modelReady] }
    (fun kv hkv => lookupTab_eq_some_of_mem_nodup hnd hkv)]

/-- A full single-trigger run from an empty worker state: the capture
creates the placeholder record and the pipeline rewrites summary and
tags from the captured body text, emitting exactly the summary-only and
tags-only notifications. -/
theorem pageContentRunFromEmpty (env : Env) (k : Nat) (u ti : Option String)
    (s : String) (t0 t1 t2 t3 t4 : Nat) (hk : k ≠ 0) (hs : s ≠ "") :
    runEvents env initConfig
      [.pageContent k ⟨u, ti, some s⟩ t0, .taskStep 0 t1, .taskStep 0 t2,
       .taskStep 0 t3, .taskStep 0 t4] =
      { tabsStore := setTab
          (setTab (setTab [] k (capturedRecord k ⟨u, ti, some s⟩ t0)) k
            { capturedRecord k ⟨u, ti, some s⟩ t0 with
              tabNote := some (generateTabNote env s), lastUpdated := some t1 }) k
          { capturedRecord k ⟨u, ti, some s⟩ t0 with
            tabNote := some (generateTabNote env s),
            tags := some (generateSmartTags env (generateTabNote env s)),
            lastUpdated := some t3 },
        saved := setTab
          (setTab (setTab [] k (capturedRecord k ⟨u, ti, some s⟩ t0)) k
            { capturedRecord k ⟨u, ti, some s⟩ t0 with
              tabNote := some (generateTabNote env s), lastUpdated := some t1 }) k
          { capturedRecord k ⟨u, ti, some s⟩ t0 with
            tabNote := some (generateTabNote env s),
            tags := some (generateSmartTags env (generateTabNote env s)),
            lastUpdated := some t3 },
        msgs := [Msg.summaryUpdate k (generateTabNote env s),
                 Msg.tagsUpdate k (generateSmartTags env (generateTabNote env s))],
        tasks := [] } := by
  have htr : truthyStr (some s) = true := by simp [truthyStr, hs]
  rw [runEvents_cons]
  have h0 : applyEvent env initConfig (.pageContent k ⟨u, ti, some s⟩ t0) =
      { tabsStore := setTab [] k (capturedRecord k ⟨u, ti, some s⟩ t0),
        saved := [], msgs := [], tasks := [Task.noteWait k ⟨u, ti, some s⟩] } := by
    show pageContentHandler initConfig k _ t0 = _
    rw [pageContentHandler_new hk (show lookupTab initConfig.tabsStore k = none from rfl) _ t0]
    rw [startProcessTab_some_truthy hk
      (show lookupTab ({ initConfig with
          tabsStore := setTab initConfig.tabsStore k (capturedRecord k ⟨u, ti, some s⟩ t0) } : Config).tabsStore k =
        some (capturedRecord k ⟨u, ti, some s⟩ t0) from lookupTab_setTab_self _ _ _) htr t0]
    simp [initConfig]
  rw [h0]
  rw [singleRunSteps env _ k ⟨u, ti, some s⟩ (capturedRecord k ⟨u, ti, some s⟩ t0)
    t1 t2 t3 t4 (lookupTab_setTab_self _ _ _) rfl]
  simp

/-- A full single-trigger run over an existing record with no pending
continuation: the capture handler keeps the stored record (its `url`,
`title` and `rawText` are not refreshed), and the pipeline rewrites only
`tabNote`, `tags` and `lastUpdated` from the captured body text. -/
theorem pageContentRunExisting (env : Env) (c : Config) (k : Nat) (r : TabRecord)
    (u ti : Option String) (s : String) (t0 t1 t2 t3 t4 : Nat)
    (hk : k ≠ 0) (hs : s ≠ "")
    (hr : lookupTab c.tabsStore k = some r) (htasks : c.tasks = []) :
    runEvents env c
      [.pageContent k ⟨u, ti, some s⟩ t0, .taskStep 0 t1, .taskStep 0 t2,
       .taskStep 0 t3, .taskStep 0 t4] =
      { tabsStore := setTab
          (setTab c.tabsStore k
            { r with tabNote := some (generateTabNote env s), lastUpdated := some t1 }) k
          { r with tabNote := some (generateTabNote env s),
                   tags := some (generateSmartTags env (generateTabNote env s)),
                   lastUpdated := some t3 },
        saved := setTab
          (setTab c.tabsStore k
            { r with tabNote := some (generateTabNote env s), lastUpdated := some t1 }) k
          { r with tabNote := some (generateTabNote env s),
                   tags := some (generateSmartTags env (generateTabNote env s)),
                   lastUpdated := some t3 },
        msgs := c.msgs ++
          [Msg.summaryUpdate k (generateTabNote env s),
           Msg.tagsUpdate k (generateSmartTags env (generateTabNote env s))],
        tasks := [] } := by
  have htr : truthyStr (some s) = true := by simp [truthyStr, hs]
  rw [runEvents_cons]
  have h0 : applyEvent env c (.pageContent k ⟨u, ti, some s⟩ t0) =
      { c with tasks := [Task.noteWait k ⟨u, ti, some s⟩] } := by
    show pageContentHandler c k _ t0 = _
    rw [pageContentHandler_existing hk hr _ t0]
    rw [startProcessTab_some_truthy hk hr htr t0]
    rw [htasks]
    simp
  rw [h0]
  rw [singleRunSteps env
    { c with tasks := [Task.noteWait k ⟨u, ti, some s⟩] } k ⟨u, ti, some s⟩ r
    t1 t2 t3 t4 hr rfl]
  simp

theorem triggerDownloadHandler_true_eq (c : Config) (t : Nat) :
    triggerDownloadHandler c true t =
      c.tabsStore.foldl (fun acc kv =>
        if truthyStr kv.2.rawText then
          startProcessTab acc kv.1 ⟨none, none, kv.2.rawText⟩ t
        else acc) { c with msgs := c.msgs ++ [Msg.modelReady] } := by
  simp [triggerDownloadHandler]

theorem inv_startProcessTab {c : Config} (hInv : Inv c) (k : Nat) (d : Content)
    (t : Nat) : Inv (startProcessTab c k d t) := by
  obtain ⟨hnd, hrec⟩ := hInv
  by_cases hk : k = 0
  · subst hk; rw [startProcessTab_zero]; exact ⟨hnd, hrec⟩
  · cases h0 : lookupTab c.tabsStore k with
    | some r0 =>
      cases htr : truthyStr d.bodyText
      · rw [startProcessTab_some_falsy hk h0 htr]; exact ⟨hnd, hrec⟩
      · rw [startProcessTab_some_truthy hk h0 htr]
        refine ⟨hnd, ?_⟩
        intro kv hkv hpl
        obtain ⟨d0, hd0⟩ := hrec kv hkv hpl
        exact ⟨d0, List.mem_append_left _ hd0⟩
    | none =>
      have hfresh : ∀ kv ∈ setTab c.tabsStore k (freshRecord k d t),
          kv.2.tabNote = some "Generating..." →
            ∃ d0, Task.noteWait kv.1 d0 ∈ c.tasks := by
        intro kv hkv hpl
        rcases mem_setTab hnd hkv with heq | ⟨hmem, _⟩
        · exfalso
          rw [heq] at hpl
          simp [freshRecord] at hpl
        · exact hrec kv hmem hpl
      have hndnew := nodup_keys_setTab k (freshRecord k d t) hnd
      cases htr : truthyStr d.bodyText
      · rw [startProcessTab_none_falsy hk h0 htr]
        exact ⟨hndnew, hfresh⟩
      · rw [startProcessTab_none_truthy hk h0 htr]
        refine ⟨hndnew, ?_⟩
        intro kv hkv hpl
        obtain ⟨d0, hd0⟩ := hfresh kv hkv hpl
        exact ⟨d0, List.mem_append_left _ hd0⟩

theorem inv_pageContentHandler {c : Config} (hInv : Inv c) {k : Nat} {d : Content}
    (hbody : truthyStr d.bodyText = true) (t : Nat) :
    Inv (pageContentHandler c k d t) := by
  by_cases hk : k = 0
  · subst hk; rw [pageContentHandler_zero]; exact hInv
  · cases h0 : lookupTab c.tabsStore k with
    | some r0 =>
      rw [pageContentHandler_existing hk h0 d t]
      exact inv_startProcessTab hInv k d t
    | none =>
      rw [pageContentHandler_new hk h0 d t]
      rw [startProcessTab_some_truthy hk
        (show lookupTab ({ c with
            tabsStore := setTab c.tabsStore k (capturedRecord k d t) } : Config).tabsStore k =
          some (capturedRecord k d t) from lookupTab_setTab_self _ _ _) hbody t]
      obtain ⟨hnd, hrec⟩ := hInv
      refine ⟨nodup_keys_setTab _ _ hnd, ?_⟩
      intro kv hkv hpl
      rcases mem_setTab hnd hkv with heq | ⟨hmem, _⟩
      · have hk1 : kv.1 = k := by rw [heq]
        rw [hk1]
        exact ⟨d, List.mem_append_right _ (List.mem_singleton.mpr rfl)⟩
      · obtain ⟨d0, hd0⟩ := hrec kv hmem hpl
        exact ⟨d0, List.mem_append_left _ hd0⟩

theorem inv_removeTabHandler {c : Config} (hInv : Inv c) (k : Nat) :
    Inv (removeTabHandler c k) := by
  obtain ⟨hnd, hrec⟩ := hInv
  cases h0 : lookupTab c.tabsStore k with
  | none => rw [removeTabHandler_absent h0]; exact ⟨hnd, hrec⟩
  | some r0 =>
    rw [removeTabHandler_present h0]
    refine ⟨nodup_keys_eraseTab _ hnd, ?_⟩
    intro kv hkv hpl
    exact hrec kv (mem_eraseTab hkv) hpl

theorem inv_taskStepHandler (env : Env)
    (hgood : ∀ s, generateTabNote env s ≠ "Generating...")
    {c : Config} (i : Nat) (t : Nat) (hInv : Inv c) :
    Inv (taskStepHandler env c i t) := by
  obtain ⟨hnd, hrec⟩ := hInv
  cases hget : c.tasks.get? i with
  | none => rw [taskStepHandler_oob env hget t]; exact ⟨hnd, hrec⟩
  | some task =>
    rw [taskStepHandler_get env hget t]
    cases task with
    | noteWait k0 d =>
      cases h0 : lookupTab c.tabsStore k0 with
      | none =>
        rw [runTask_noteWait_none env (show lookupTab ({ c with tasks := c.tasks.eraseIdx i } : Config).tabsStore k0 = none from h0) d t]
        refine ⟨hnd, ?_⟩
        intro kv hkv hpl
        obtain ⟨d0, hd0⟩ := hrec kv hkv hpl
        by_cases hkk : kv.1 = k0
        · exfalso
          exact not_mem_keys_of_lookupTab_eq_none h0
            (hkk ▸ List.mem_map_of_mem Prod.fst hkv)
        · refine ⟨d0, mem_eraseIdx_of_ne hget hd0 ?_⟩
          intro he
          injection he with h1 h2
          exact hkk h1
      | some r0 =>
        rw [runTask_noteWait_some env (show lookupTab ({ c with tasks := c.tasks.eraseIdx i } : Config).tabsStore k0 = some r0 from h0) d t]
        refine ⟨nodup_keys_setTab _ _ hnd, ?_⟩
        intro kv hkv hpl
        rcases mem_setTab hnd hkv with heq | ⟨hmem, hne⟩
        · exfalso
          rw [heq] at hpl
          simp at hpl
          exact hgood _ hpl
        · obtain ⟨d0, hd0⟩ := hrec kv hmem hpl
          refine ⟨d0, List.mem_append_left _ (mem_eraseIdx_of_ne hget hd0 ?_)⟩
          intro he
          injection he with h1 h2
          exact hne h1
    | afterSave k0 note =>
      cases h0 : lookupTab c.tabsStore k0 with
      | some r0 =>
        rw [runTask_afterSave_some env (show lookupTab ({ c with tasks := c.tasks.eraseIdx i } : Config).tabsStore k0 = some r0 from h0) note t]
        refine ⟨hnd, ?_⟩
        intro kv hkv hpl
        obtain ⟨d0, hd0⟩ := hrec kv hkv hpl
        exact ⟨d0, List.mem_append_left _
          (mem_eraseIdx_of_ne hget hd0 (fun he => by cases he))⟩
      | none =>
        rw [runTask_afterSave_none env (show lookupTab ({ c with tasks := c.tasks.eraseIdx i } : Config).tabsStore k0 = none from h0) note t]
        refine ⟨nodup_keys_setTab _ _ hnd, ?_⟩
        intro kv hkv hpl
        rcases mem_setTab hnd hkv with heq | ⟨hmem, hne⟩
        · exfalso
          rw [heq] at hpl
          simp [emptyRecord] at hpl
        · obtain ⟨d0, hd0⟩ := hrec kv hmem hpl
          exact ⟨d0, List.mem_append_left _
            (mem_eraseIdx_of_ne hget hd0 (fun he => by cases he))⟩
    | tagsWait k0 note =>
      cases h0 : lookupTab c.tabsStore k0 with
      | none =>
        rw [runTask_tagsWait_none env (show lookupTab ({ c with tasks := c.tasks.eraseIdx i } : Config).tabsStore k0 = none from h0) note t]
        refine ⟨hnd, ?_⟩
        intro kv hkv hpl
        obtain ⟨d0, hd0⟩ := hrec kv hkv hpl
        exact ⟨d0, mem_eraseIdx_of_ne hget hd0 (fun he => by cases he)⟩
      | some r0 =>
        rw [runTask_tagsWait_some env (show lookupTab ({ c with tasks := c.tasks.eraseIdx i } : Config).tabsStore k0 = some r0 from h0) note t]
        refine ⟨nodup_keys_setTab _ _ hnd, ?_⟩
        intro kv hkv hpl
        rcases mem_setTab hnd hkv with heq | ⟨hmem, hne⟩
        · rw [heq] at hpl
          simp at hpl
          obtain ⟨d0, hd0⟩ := hrec (k0, r0) (mem_of_lookupTab_eq_some h0) hpl
          have hk1 : kv.1 = k0 := by rw [heq]
          rw [hk1]
          exact ⟨d0, List.mem_append_left _
            (mem_eraseIdx_of_ne hget hd0 (fun he => by cases he))⟩
        · obtain ⟨d0, hd0⟩ := hrec kv hmem hpl
          exact ⟨d0, List.mem_append_left _
            (mem_eraseIdx_of_ne hget hd0 (fun he => by cases he))⟩
    | tagsSaved k0 tags =>
      rw [runTask_tagsSaved]
      refine ⟨hnd, ?_⟩
      intro kv hkv hpl
      obtain ⟨d0, hd0⟩ := hrec kv hkv hpl
      exact ⟨d0, mem_eraseIdx_of_ne hget hd0 (fun he => by cases he)⟩

theorem inv_triggerDownloadHandler {c : Config} (hInv : Inv c) (success : Bool)
    (t : Nat) : Inv (triggerDownloadHandler c success t) := by
  cases success with
  | false => rw [triggerDownloadHandler_failure]; exact hInv
  | true =>
    rw [triggerDownloadHandler_true_eq]
    have main : ∀ (entries : List (Nat × TabRecord)) (acc : Config), Inv acc →
        Inv (entries.foldl (fun acc kv =>
          if truthyStr kv.2.rawText then
            startProcessTab acc kv.1 ⟨none, none, kv.2.rawText⟩ t
          else acc) acc) := by
      intro entries
      induction entries with
      | nil => intro acc h; exact h
      | cons kv rest ih =>
        intro acc h
        simp only [List.foldl_cons]
        cases htr : truthyStr kv.2.rawText
        · rw [if_neg (by simp [htr])]
          exact ih acc h
        · rw [if_pos (by simp [htr])]
          exact ih _ (inv_startProcessTab h kv.1 ⟨none, none, kv.2.rawText⟩ t)
    exact main c.tabsStore _ ⟨hInv.1, hInv.2⟩

theorem inv_applyEvent (env : Env)
    (hgood : ∀ s, generateTabNote env s ≠ "Generating...")
    {c : Config} {e : Event} (he : eventNonEmptyBody e = true) (hInv : Inv c) :
    Inv (applyEvent env c e) := by
  cases e with
  | pageContent k d t => exact inv_pageContentHandler hInv he t
  | tabRemoved k => exact inv_removeTabHandler hInv k
  | taskStep i t => exact inv_taskStepHandler env hgood i t hInv
  | triggerDownload success t => exact inv_triggerDownloadHandler hInv success t

theorem inv_runEvents (env : Env)
    (hgood : ∀ s, generateTabNote env s ≠ "Generating...") :
    ∀ (es : List Event) (c : Config), (∀ e ∈ es, eventNonEmptyBody e = true) → Inv c →
      Inv (runEvents env c es) := by
  intro es
  induction es with
  | nil => intro c _ h; exact h
  | cons e rest ih =>
    intro c hes h
    rw [runEvents_cons]
    exact ih _ (fun e0 he0 => hes e0 (List.mem_cons_of_mem _ he0))
      (inv_applyEvent env hgood (hes e (List.mem_cons_self _ _)) h)

theorem countNoteWait_append (k : Nat) (a b : List Task) :
    countNoteWait k (a ++ b) = countNoteWait k a + countNoteWait k b := by
  simp [countNoteWait, List.filter_append]

theorem catchupSpawn_shape {kv : Nat × TabRecord} {task : Task}
    (h : catchupSpawn kv = some task) :
    task = Task.noteWait kv.1 ⟨none, none, kv.2.rawText⟩ ∧ kv.1 ≠ 0 ∧
      truthyStr kv.2.rawText = true := by
  by_cases h0 : kv.1 = 0
  · simp [catchupSpawn, h0] at h
  · cases htr : truthyStr kv.2.rawText
    · simp [catchupSpawn, h0, htr] at h
    · simp [catchupSpawn, h0, htr] at h
      exact ⟨h.symm, h0, rfl⟩

theorem countSpawn_not_mem {entries : List (Nat × TabRecord)} {k : Nat}
    (h : k ∉ entries.map Prod.fst) :
    countNoteWait k (entries.filterMap catchupSpawn) = 0 := by
  induction entries with
  | nil => rfl
  | cons kv rest ih =>
    obtain ⟨k0, r0⟩ := kv
    simp only [List.map_cons, List.mem_cons] at h
    push_neg at h
    simp only [List.filterMap_cons]
    cases hsp : catchupSpawn (k0, r0) with
    | none => exact ih h.2
    | some task =>
      obtain ⟨htask, _, _⟩ := catchupSpawn_shape hsp
      have hfalse : isNoteWaitFor k task = false := by
        rw [htask]
        simp [isNoteWaitFor, Ne.symm h.1]
      simp only [countNoteWait, List.filter_cons, hfalse]
      exact ih h.2

theorem countSpawn_lookup {entries : List (Nat × TabRecord)} {k : Nat} {r : TabRecord}
    (hnd : (entries.map Prod.fst).Nodup) (h : lookupTab entries k = some r) :
    countNoteWait k (entries.filterMap catchupSpawn) =
      if k ≠ 0 ∧ truthyStr r.rawText = true then 1 else 0 := by
  induction entries with
  | nil => simp [lookupTab] at h
  | cons kv rest ih =>
    obtain ⟨k0, r0⟩ := kv
    simp only [List.map_cons, List.nodup_cons] at hnd
    by_cases hk : k0 = k
    · subst hk
      simp only [lookupTab, if_true, eq_self_iff_true] at h
      obtain rfl : r0 = r := by injection h
      simp only [List.filterMap_cons]
      have hrest : countNoteWait k0 (rest.filterMap catchupSpawn) = 0 :=
        countSpawn_not_mem hnd.1
      cases hsp : catchupSpawn (k0, r0) with
      | none =>
        simp only [hsp]
        rw [hrest]
        by_cases h0 : k0 = 0
        · simp [h0]
        · cases htr : truthyStr r0.rawText
          · simp [htr]
          · exfalso
            simp [catchupSpawn, h0, htr] at hsp
      | some task =>
        obtain ⟨htask, hne0, htr⟩ := catchupSpawn_shape hsp
        have htrue : isNoteWaitFor k0 task = true := by
          rw [htask]
          simp [isNoteWaitFor]
        simp only [hsp]
        rw [if_pos (show k0 ≠ 0 ∧ truthyStr r0.rawText = true from ⟨hne0, htr⟩)]
        show (List.filter (isNoteWaitFor k0) (task :: rest.filterMap catchupSpawn)).length = 1
        rw [List.filter_cons_of_pos htrue, List.length_cons]
        have hlen : (List.filter (isNoteWaitFor k0) (rest.filterMap catchupSpawn)).length = 0 :=
          hrest
        rw [hlen]
    · simp only [lookupTab, if_neg hk] at h
      simp only [List.filterMap_cons]
      cases hsp : catchupSpawn (k0, r0) with
      | none =>
        simp only [hsp]
        exact ih hnd.2 h
      | some task =>
        obtain ⟨htask, _, _⟩ := catchupSpawn_shape hsp
        have hfalse : isNoteWaitFor k task = false := by
          rw [htask]
          simp [isNoteWaitFor, hk]
        simp only [hsp]
        show (List.filter (isNoteWaitFor k) (task :: rest.filterMap catchupSpawn)).length = _
        rw [List.filter_cons_of_neg (by simp [hfalse])]
        exact ih hnd.2 h

/-- C1 counterexample: closing tab 1 while its run is parked at the
first `saveTabs` leads, after every in-flight completion (no pending
continuation remains), to a store that still holds a record for tab 1:
the reconfirm-existence step of `processTabContent` recreated it as an
empty object, refuting the no-resurrection claim. -/
theorem closed_tab_record_resurrected :
    (runEvents envSumOnly initConfig esResurrect).tasks = [] ∧
    lookupTab (runEvents envSumOnly initConfig esResurrect).tabsStore 1 ≠ none := by
  decide

/-- C2 counterexample: running `processTab(7, bodyText = "short")` to
completion leaves `summary` at the insufficient-content sentinel but
`tags` at `["Uncategorized"]`, not the empty sequence: the tag task
still runs on the sentinel summary. -/
theorem short_body_final_tags_not_empty :
    ((lookupTab (runEvents envSumOnly initConfig esShortBody).tabsStore 7).bind
        TabRecord.tags) = some ["Uncategorized"] ∧
    ((lookupTab (runEvents envSumOnly initConfig esShortBody).tabsStore 7).bind
        TabRecord.tabNote) = some "Not enough readable content for AI summary." ∧
    (runEvents envSumOnly initConfig esShortBody).tasks = [] ∧
    some ["Uncategorized"] ≠ some ([] : List String) := by
  decide

/-- C3 counterexample: when the summarize request rejects but the prompt
backend works, the settled record carries the failure-sentinel summary
together with the model-produced tag `["News"]`, not the claimed
`["Uncategorized"]` fallback. -/
theorem summarize_failure_tags_from_prompt :
    ((lookupTab (runEvents envSumErrPromptNews initConfig esFailingBackend).tabsStore 5).bind
        TabRecord.tabNote) = some "AI execution failed." ∧
    ((lookupTab (runEvents envSumErrPromptNews initConfig esFailingBackend).tabsStore 5).bind
        TabRecord.tags) = some ["News"] ∧
    (runEvents envSumErrPromptNews initConfig esFailingBackend).tasks = [] ∧
    some ["News"] ≠ some ["Uncategorized"] := by
  decide

/-- C4 counterexample: a capture with empty body text creates the record
with the `"Generating..."` placeholder and `processTabContent` returns
without touching it, so after the call settles the summary is still the
placeholder. -/
theorem empty_body_placeholder_persists :
    (runEvents envSumOnly initConfig esEmptyBody).tasks = [] ∧
    ((lookupTab (runEvents envSumOnly initConfig esEmptyBody).tabsStore 7).bind
        TabRecord.tabNote) = some "Generating..." := by
  decide

/-- C7 counterexample: after a second capture for tab 1 with the new
page values runs to completion, the record still holds the first page
values of `url`, `title` and `rawText`; only summary and tags were
regenerated. -/
theorem navigation_keeps_stale_capture_fields :
    ((lookupTab (runEvents envSumOnly initConfig esNavigate).tabsStore 1).bind
        TabRecord.url) = some "https://a.example/article" ∧
    ((lookupTab (runEvents envSumOnly initConfig esNavigate).tabsStore 1).bind
        TabRecord.title) = some "Page A" ∧
    ((lookupTab (runEvents envSumOnly initConfig esNavigate).tabsStore 1).bind
        TabRecord.rawText) = some longBodyA ∧
    contentB.url = some "https://b.example/other" ∧
    contentB.title = some "Page B" ∧
    contentB.bodyText = some longBodyB ∧
    some "https://a.example/article" ≠ some "https://b.example/other" ∧
    (runEvents envSumOnly initConfig esNavigate).tasks = [] := by
  decide

/-- C8 counterexample: right after the summary write the record of tab 1
carries `lastUpdated = 11`, but the resurrection performed by the next
completion (after the tab was removed) replaces the record by the empty
object, whose `lastUpdated` is absent: the timestamp is not bumped and
regresses. -/
theorem resurrection_regresses_lastUpdated :
    ((lookupTab (runEvents envSumOnly initConfig esResurrectPre).tabsStore 1).bind
        TabRecord.lastUpdated) = some 11 ∧
    lookupTab (runEvents envSumOnly initConfig esResurrectMid).tabsStore 1 =
      some emptyRecord ∧
    emptyRecord.lastUpdated = none := by
  decide

/-- C1 (amended): when the record is deleted while a run is in flight,
the tag-completion write is a genuine no-op that never recreates the
record; but the reconfirm-existence step after the summary save
recreates the deleted record as the empty object, so a record for the
closed tab can exist again after the in-flight completions. -/
theorem tag_completion_noop_but_reconfirm_resurrects (env : Env) (c : Config)
    (k : Nat) (note : String) (t : Nat) (h : lookupTab c.tabsStore k = none) :
    runTask env c (.tagsWait k note) t = c ∧
    (runTask env c (.afterSave k note) t).tabsStore =
      setTab c.tabsStore k emptyRecord ∧
    lookupTab (runTask env c (.afterSave k note) t).tabsStore k =
      some emptyRecord := by
  refine ⟨runTask_tagsWait_none env h note t, ?_, ?_⟩
  · rw [runTask_afterSave_none env h note t]
  · rw [runTask_afterSave_none env h note t]
    exact lookupTab_setTab_self _ _ _

/-- Witness for the amended C1 theorem at a concrete deleted record. -/
theorem tag_completion_noop_but_reconfirm_resurrects_witness :
    lookupTab initConfig.tabsStore 1 = none ∧
    (runTask envSumOnly initConfig (.tagsWait 1 "a note") 5 = initConfig ∧
     (runTask envSumOnly initConfig (.afterSave 1 "a note") 5).tabsStore =
       setTab initConfig.tabsStore 1 emptyRecord ∧
     lookupTab (runTask envSumOnly initConfig (.afterSave 1 "a note") 5).tabsStore 1 =
       some emptyRecord) :=
  ⟨rfl, tag_completion_noop_but_reconfirm_resurrects envSumOnly initConfig 1 "a note" 5 rfl⟩

/-- C4 (amended): over any schedule whose capture messages all carry
truthy body text, with a backend whose summary values never coincide
with the placeholder, once all continuations have settled no stored
record carries the `"Generating..."` placeholder summary.  (Captures
with empty body text are excluded: the code skips them and leaves the
placeholder, per the counterexample.) -/
theorem settled_summary_not_placeholder (env : Env) (es : List Event)
    (hgood : ∀ s, generateTabNote env s ≠ "Generating...")
    (hes : ∀ e ∈ es, eventNonEmptyBody e = true)
    (hdone : (runEvents env initConfig es).tasks = []) :
    ∀ k r, lookupTab (runEvents env initConfig es).tabsStore k = some r →
      r.tabNote ≠ some "Generating..." := by
  intro k r hlook hpl
  have hInv : Inv (runEvents env initConfig es) :=
    inv_runEvents env hgood es initConfig hes
      ⟨List.nodup_nil, by intro kv hkv; simp [initConfig] at hkv⟩
  obtain ⟨d0, hd0⟩ := hInv.2 (k, r) (mem_of_lookupTab_eq_some hlook) hpl
  rw [hdone] at hd0
  simp at hd0

/-- Witness for the amended C4 theorem on the short-body schedule with
an unavailable backend. -/
theorem settled_summary_not_placeholder_witness :
    (∀ s, generateTabNote envUnavailable s ≠ "Generating...") ∧
    (∀ e ∈ esShortBody, eventNonEmptyBody e = true) ∧
    (runEvents envUnavailable initConfig esShortBody).tasks = [] ∧
    (∀ k r, lookupTab (runEvents envUnavailable initConfig esShortBody).tabsStore k =
        some r → r.tabNote ≠ some "Generating...") :=
  ⟨fun s => by
      show ("AI Status: " ++ "downloadable" ++ ". Summary unavailable.") ≠ "Generating..."
      decide,
   by decide, by decide,
   settled_summary_not_placeholder envUnavailable esShortBody
     (fun s => by
       show ("AI Status: " ++ "downloadable" ++ ". Summary unavailable.") ≠ "Generating..."
       decide)
     (by decide) (by decide)⟩

/-- C5: with the backend ready and body text above the threshold, a
single trigger from an empty worker state emits exactly one
summary-only notification followed by exactly one tags-only
notification, both carrying the tab id, and the summary notification is
emitted by the step that precedes tag generation (its emission does not
wait on the tag task). -/
theorem single_trigger_notification_sequence (env : Env) (k : Nat)
    (u ti : Option String) (s : String) (t0 t1 t2 t3 t4 : Nat) (hk : k ≠ 0)
    (_hready : env.summarizer.isSome = true) (hlen : 100 ≤ s.length) :
    (runEvents env initConfig
      [.pageContent k ⟨u, ti, some s⟩ t0, .taskStep 0 t1, .taskStep 0 t2,
       .taskStep 0 t3, .taskStep 0 t4]).msgs =
      [Msg.summaryUpdate k (generateTabNote env s),
       Msg.tagsUpdate k (generateSmartTags env (generateTabNote env s))] ∧
    (runEvents env initConfig
      [.pageContent k ⟨u, ti, some s⟩ t0, .taskStep 0 t1, .taskStep 0 t2,
       .taskStep 0 t3, .taskStep 0 t4]).tasks = [] := by
  have hs : s ≠ "" := by
    intro he
    rw [he] at hlen
    simp at hlen
  rw [pageContentRunFromEmpty env k u ti s t0 t1 t2 t3 t4 hk hs]
  exact ⟨rfl, rfl⟩

/-- Witness for the C5 theorem on a concrete 120-character body. -/
theorem single_trigger_notification_sequence_witness :
    (3 ≠ 0) ∧ envSumOnly.summarizer.isSome = true ∧ 100 ≤ longBodyA.length ∧
    ((runEvents envSumOnly initConfig
      [.pageContent 3 ⟨some "https://a.example/article", some "Page A", some longBodyA⟩ 1,
       .taskStep 0 2, .taskStep 0 3, .taskStep 0 4, .taskStep 0 5]).msgs =
      [Msg.summaryUpdate 3 (generateTabNote envSumOnly longBodyA),
       Msg.tagsUpdate 3 (generateSmartTags envSumOnly (generateTabNote envSumOnly longBodyA))] ∧
     (runEvents envSumOnly initConfig
      [.pageContent 3 ⟨some "https://a.example/article", some "Page A", some longBodyA⟩ 1,
       .taskStep 0 2, .taskStep 0 3, .taskStep 0 4, .taskStep 0 5]).tasks = []) :=
  ⟨by decide, by decide, by decide,
   single_trigger_notification_sequence envSumOnly 3
     (some "https://a.example/article") (some "Page A") longBodyA 1 2 3 4 5
     (by decide) (by decide) (by decide)⟩

/-- C7 (amended): a re-capture for an already-tracked tab regenerates
the summary from the newly captured body text and the tags from that
new summary, but leaves `url`, `title` and `rawText` at the values
stored when the record was first created — they are not refreshed to
the new page. -/
theorem recapture_derives_from_new_capture_only (env : Env) (c : Config)
    (k : Nat) (r : TabRecord) (u ti : Option String) (s : String)
    (t0 t1 t2 t3 t4 : Nat) (hk : k ≠ 0) (hs : s ≠ "")
    (hr : lookupTab c.tabsStore k = some r) (htasks : c.tasks = []) :
    lookupTab (runEvents env c
        [.pageContent k ⟨u, ti, some s⟩ t0, .taskStep 0 t1, .taskStep 0 t2,
         .taskStep 0 t3, .taskStep 0 t4]).tabsStore k =
      some { r with tabNote := some (generateTabNote env s),
                    tags := some (generateSmartTags env (generateTabNote env s)),
                    lastUpdated := some t3 } := by
  rw [pageContentRunExisting env c k r u ti s t0 t1 t2 t3 t4 hk hs hr htasks]
  exact lookupTab_setTab_self _ _ _

/-- Witness for the amended C7 theorem: re-capturing tab 1 with the
page-B body over the stored page-A record. -/
theorem recapture_derives_from_new_capture_only_witness :
    lookupTab cfgOneTab.tabsStore 1 = some recWithRaw ∧ cfgOneTab.tasks = [] ∧
    lookupTab (runEvents envSumOnly cfgOneTab
        [.pageContent 1 ⟨some "https://b.example/other", some "Page B", some longBodyB⟩ 6,
         .taskStep 0 7, .taskStep 0 8, .taskStep 0 9, .taskStep 0 10]).tabsStore 1 =
      some { recWithRaw with
             tabNote := some (generateTabNote envSumOnly longBodyB),
             tags := some (generateSmartTags envSumOnly (generateTabNote envSumOnly longBodyB)),
             lastUpdated := some 9 } :=
  ⟨by decide, by decide,
   recapture_derives_from_new_capture_only envSumOnly cfgOneTab 1 recWithRaw
     (some "https://b.example/other") (some "Page B") longBodyB 6 7 8 9 10
     (by decide) (by decide) (by decide) (by decide)⟩

/-- C2 (amended): for body text below the length threshold the
summarize backend is never invoked — the result of `generateTabNote` is
the insufficient-content sentinel for every summarizer behavior — and
the settled record carries that sentinel as its summary; the tags,
however, do not stay empty: the tag task still runs on the sentinel
summary and stores its fallback or model-derived singleton. -/
theorem short_body_sentinel_without_summarize (env : Env)
    (f : String → CallResult SummarizerOutput) (hsum : env.summarizer = some f)
    (k : Nat) (u ti : Option String) (s : String) (t0 t1 t2 t3 t4 : Nat)
    (hk : k ≠ 0) (hs : s ≠ "") (hshort : s.length < 100) :
    (∀ g : String → CallResult SummarizerOutput,
      generateTabNote { env with summarizer := some g } s =
        "Not enough readable content for AI summary.") ∧
    lookupTab (runEvents env initConfig
        [.pageContent k ⟨u, ti, some s⟩ t0, .taskStep 0 t1, .taskStep 0 t2,
         .taskStep 0 t3, .taskStep 0 t4]).tabsStore k =
      some { capturedRecord k ⟨u, ti, some s⟩ t0 with
             tabNote := some "Not enough readable content for AI summary.",
             tags := some (generateSmartTags env
               "Not enough readable content for AI summary."),
             lastUpdated := some t3 } ∧
    (runEvents env initConfig
        [.pageContent k ⟨u, ti, some s⟩ t0, .taskStep 0 t1, .taskStep 0 t2,
         .taskStep 0 t3, .taskStep 0 t4]).tasks = [] := by
  have hnote : generateTabNote env s = "Not enough readable content for AI summary." := by
    simp [generateTabNote, hsum, hshort]
  refine ⟨?_, ?_, ?_⟩
  · intro g
    simp [generateTabNote, hshort]
  · rw [pageContentRunFromEmpty env k u ti s t0 t1 t2 t3 t4 hk hs]
    rw [show lookupTab (setTab
        (setTab (setTab [] k (capturedRecord k ⟨u, ti, some s⟩ t0)) k
          { capturedRecord k ⟨u, ti, some s⟩ t0 with
            tabNote := some (generateTabNote env s), lastUpdated := some t1 }) k
        { capturedRecord k ⟨u, ti, some s⟩ t0 with
          tabNote := some (generateTabNote env s),
          tags := some (generateSmartTags env (generateTabNote env s)),
          lastUpdated := some t3 }) k =
      some { capturedRecord k ⟨u, ti, some s⟩ t0 with
             tabNote := some (generateTabNote env s),
             tags := some (generateSmartTags env (generateTabNote env s)),
             lastUpdated := some t3 } from lookupTab_setTab_self _ _ _]
    rw [hnote]
  · rw [pageContentRunFromEmpty env k u ti s t0 t1 t2 t3 t4 hk hs]

/-- Witness for the amended C2 theorem on the sample short body. -/
theorem short_body_sentinel_without_summarize_witness :
    envSumOnly.summarizer =
      some (fun _ => CallResult.ok
        (SummarizerOutput.strVal "A concise summary of the captured page.")) ∧
    (7 ≠ 0) ∧ ("short" ≠ "") ∧ ("short".length < 100) ∧
    ((∀ g : String → CallResult SummarizerOutput,
       generateTabNote { envSumOnly with summarizer := some g } "short" =
         "Not enough readable content for AI summary.") ∧
     lookupTab (runEvents envSumOnly initConfig
         [.pageContent 7 ⟨none, none, some "short"⟩ 1, .taskStep 0 2, .taskStep 0 3,
          .taskStep 0 4, .taskStep 0 5]).tabsStore 7 =
       some { capturedRecord 7 ⟨none, none, some "short"⟩ 1 with
              tabNote := some "Not enough readable content for AI summary.",
              tags := some (generateSmartTags envSumOnly
                "Not enough readable content for AI summary."),
              lastUpdated := some 4 } ∧
     (runEvents envSumOnly initConfig
         [.pageContent 7 ⟨none, none, some "short"⟩ 1, .taskStep 0 2, .taskStep 0 3,
          .taskStep 0 4, .taskStep 0 5]).tasks = []) :=
  ⟨rfl, by decide, by decide, by decide,
   short_body_sentinel_without_summarize envSumOnly _ rfl 7 none none "short"
     1 2 3 4 5 (by decide) (by decide) (by decide)⟩

/-- C3 (amended): with non-empty body text, when the backend is wholly
unavailable the settled record carries the status sentinel summary and
the `["Uncategorized"]` fallback; when the summarize request rejects,
the summary is the execution-failure sentinel and the tags are
`["Uncategorized"]` provided the prompt backend is also unavailable
(a working prompt backend stores its own tag instead, per the
counterexample).  Both generators are total — every failure is turned
into a sentinel value, never a thrown fault — and the trigger settles
with no pending continuation, so nothing is retried. -/
theorem backend_failure_sentinel_values (env : Env) (k : Nat)
    (u ti : Option String) (s : String) (t0 t1 t2 t3 t4 : Nat)
    (hk : k ≠ 0) (hs : s ≠ "") :
    (env.summarizer = none → env.prompter = none →
      lookupTab (runEvents env initConfig
          [.pageContent k ⟨u, ti, some s⟩ t0, .taskStep 0 t1, .taskStep 0 t2,
           .taskStep 0 t3, .taskStep 0 t4]).tabsStore k =
        some { capturedRecord k ⟨u, ti, some s⟩ t0 with
               tabNote := some ("AI Status: " ++ env.modelStatus ++ ". Summary unavailable."),
               tags := some ["Uncategorized"], lastUpdated := some t3 } ∧
      (runEvents env initConfig
          [.pageContent k ⟨u, ti, some s⟩ t0, .taskStep 0 t1, .taskStep 0 t2,
           .taskStep 0 t3, .taskStep 0 t4]).tasks = []) ∧
    (∀ f, env.summarizer = some f → f (jsSubstring s 15000) = .err →
      jsTrim s ≠ "" → 100 ≤ s.length → env.prompter = none →
      lookupTab (runEvents env initConfig
          [.pageContent k ⟨u, ti, some s⟩ t0, .taskStep 0 t1, .taskStep 0 t2,
           .taskStep 0 t3, .taskStep 0 t4]).tabsStore k =
        some { capturedRecord k ⟨u, ti, some s⟩ t0 with
               tabNote := some "AI execution failed.",
               tags := some ["Uncategorized"], lastUpdated := some t3 } ∧
      (runEvents env initConfig
          [.pageContent k ⟨u, ti, some s⟩ t0, .taskStep 0 t1, .taskStep 0 t2,
           .taskStep 0 t3, .taskStep 0 t4]).tasks = []) := by
  constructor
  · intro hsumnone hpromptnone
    have hnote : generateTabNote env s =
        "AI Status: " ++ env.modelStatus ++ ". Summary unavailable." := by
      simp [generateTabNote, hsumnone]
    have htags : generateSmartTags env
        ("AI Status: " ++ env.modelStatus ++ ". Summary unavailable.") =
        ["Uncategorized"] := by
      simp [generateSmartTags, hpromptnone]
    rw [pageContentRunFromEmpty env k u ti s t0 t1 t2 t3 t4 hk hs]
    refine ⟨?_, rfl⟩
    rw [show lookupTab (setTab
        (setTab (setTab [] k (capturedRecord k ⟨u, ti, some s⟩ t0)) k
          { capturedRecord k ⟨u, ti, some s⟩ t0 with
            tabNote := some (generateTabNote env s), lastUpdated := some t1 }) k
        { capturedRecord k ⟨u, ti, some s⟩ t0 with
          tabNote := some (generateTabNote env s),
          tags := some (generateSmartTags env (generateTabNote env s)),
          lastUpdated := some t3 }) k =
      some { capturedRecord k ⟨u, ti, some s⟩ t0 with
             tabNote := some (generateTabNote env s),
             tags := some (generateSmartTags env (generateTabNote env s)),
             lastUpdated := some t3 } from lookupTab_setTab_self _ _ _]
    rw [hnote, htags]
  · intro f hsum herr htrim hlen hpromptnone
    have hnote : generateTabNote env s = "AI execution failed." := by
      have hnotshort : ¬ (jsTrim s = "" ∨ s.length < 100) := by
        push_neg
        exact ⟨htrim, by omega⟩
      simp only [generateTabNote, hsum, if_neg hnotshort, herr]
    have htags : generateSmartTags env "AI execution failed." = ["Uncategorized"] := by
      simp [generateSmartTags, hpromptnone]
    rw [pageContentRunFromEmpty env k u ti s t0 t1 t2 t3 t4 hk hs]
    refine ⟨?_, rfl⟩
    rw [show lookupTab (setTab
        (setTab (setTab [] k (capturedRecord k ⟨u, ti, some s⟩ t0)) k
          { capturedRecord k ⟨u, ti, some s⟩ t0 with
            tabNote := some (generateTabNote env s), lastUpdated := some t1 }) k
        { capturedRecord k ⟨u, ti, some s⟩ t0 with
          tabNote := some (generateTabNote env s),
          tags := some (generateSmartTags env (generateTabNote env s)),
          lastUpdated := some t3 }) k =
      some { capturedRecord k ⟨u, ti, some s⟩ t0 with
             tabNote := some (generateTabNote env s),
             tags := some (generateSmartTags env (generateTabNote env s)),
             lastUpdated := some t3 } from lookupTab_setTab_self _ _ _]
    rw [hnote, htags]

/-- Witness for the amended C3 theorem: instantiated with the wholly
unavailable backend, discharging the unavailable-backend conjunct at
tab 5. -/
theorem backend_failure_sentinel_values_witness :
    (5 ≠ 0) ∧ (longBodyA ≠ "") ∧ envUnavailable.summarizer = none ∧
    envUnavailable.prompter = none ∧
    (lookupTab (runEvents envUnavailable initConfig
        [.pageContent 5 ⟨none, none, some longBodyA⟩ 1, .taskStep 0 2, .taskStep 0 3,
         .taskStep 0 4, .taskStep 0 5]).tabsStore 5 =
      some { capturedRecord 5 ⟨none, none, some longBodyA⟩ 1 with
             tabNote := some ("AI Status: " ++ envUnavailable.modelStatus ++
               ". Summary unavailable."),
             tags := some ["Uncategorized"], lastUpdated := some 4 } ∧
     (runEvents envUnavailable initConfig
        [.pageContent 5 ⟨none, none, some longBodyA⟩ 1, .taskStep 0 2, .taskStep 0 3,
         .taskStep 0 4, .taskStep 0 5]).tasks = []) :=
  ⟨by decide, by decide, rfl, rfl,
   (backend_failure_sentinel_values envUnavailable 5 none none longBodyA 1 2 3 4 5
     (by decide) (by decide)).1 rfl rfl⟩

/-- C6: every write performed by a resumed pipeline continuation is
field-scoped and applied to the current record: for any tab whose
record exists, a single scheduler step keeps the record present,
preserves `tabId`, `url`, `title`, `rawText`, `clusterId` and
`totalTime` unchanged, leaves `tabNote` unchanged unless the step is
this tab's summary write (which sets it from the current record), and
leaves `tags` unchanged unless the step is this tab's tag write.
Consequently, under any interleaving of two concurrent runs for the
same tab, a field written by one run and not by the other is never
lost, and no step overwrites the whole record. -/
theorem concurrent_runs_field_scoped_writes (env : Env) (c : Config)
    (i t k : Nat) (r : TabRecord) (h : lookupTab c.tabsStore k = some r) :
    ∃ r', lookupTab (taskStepHandler env c i t).tabsStore k = some r' ∧
      r'.tabId = r.tabId ∧ r'.url = r.url ∧ r'.title = r.title ∧
      r'.rawText = r.rawText ∧ r'.clusterId = r.clusterId ∧
      r'.totalTime = r.totalTime ∧
      (r'.tabNote = r.tabNote ∨
        ∃ d, c.tasks.get? i = some (.noteWait k d) ∧
          r'.tabNote = some (generateTabNote env (d.bodyText.getD ""))) ∧
      (r'.tags = r.tags ∨
        ∃ note, c.tasks.get? i = some (.tagsWait k note) ∧
          r'.tags = some (generateSmartTags env note)) := by
  cases hget : c.tasks.get? i with
  | none =>
    rw [taskStepHandler_oob env hget t]
    exact ⟨r, h, rfl, rfl, rfl, rfl, rfl, rfl, Or.inl rfl, Or.inl rfl⟩
  | some task =>
    rw [taskStepHandler_get env hget t]
    cases task with
    | noteWait k0 d =>
      cases h0 : lookupTab c.tabsStore k0 with
      | none =>
        rw [runTask_noteWait_none env (show lookupTab
          ({ c with tasks := c.tasks.eraseIdx i } : Config).tabsStore k0 = none from h0) d t]
        exact ⟨r, h, rfl, rfl, rfl, rfl, rfl, rfl, Or.inl rfl, Or.inl rfl⟩
      | some r0 =>
        rw [runTask_noteWait_some env (show lookupTab
          ({ c with tasks := c.tasks.eraseIdx i } : Config).tabsStore k0 = some r0 from h0) d t]
        by_cases hkk : k = k0
        · subst hkk
          have hr0 : r0 = r := Option.some.inj (h0.symm.trans h)
          subst hr0
          exact ⟨_, lookupTab_setTab_self _ _ _, rfl, rfl, rfl, rfl, rfl, rfl, Or.inr ⟨d, rfl, rfl⟩, Or.inl rfl⟩
        · refine ⟨r, ?_, rfl, rfl, rfl, rfl, rfl, rfl, Or.inl rfl, Or.inl rfl⟩
          simpa [lookupTab_setTab_ne _ hkk] using h
    | afterSave k0 note =>
      cases h0 : lookupTab c.tabsStore k0 with
      | some r0 =>
        rw [runTask_afterSave_some env (show lookupTab
          ({ c with tasks := c.tasks.eraseIdx i } : Config).tabsStore k0 = some r0 from h0) note t]
        exact ⟨r, h, rfl, rfl, rfl, rfl, rfl, rfl, Or.inl rfl, Or.inl rfl⟩
      | none =>
        have hkk : k ≠ k0 := by
          intro he
          rw [he, h0] at h
          cases h
        rw [runTask_afterSave_none env (show lookupTab
          ({ c with tasks := c.tasks.eraseIdx i } : Config).tabsStore k0 = none from h0) note t]
        refine ⟨r, ?_, rfl, rfl, rfl, rfl, rfl, rfl, Or.inl rfl, Or.inl rfl⟩
        simpa [lookupTab_setTab_ne _ hkk] using h
    | tagsWait k0 note =>
      cases h0 : lookupTab c.tabsStore k0 with
      | none =>
        rw [runTask_tagsWait_none env (show lookupTab
          ({ c with tasks := c.tasks.eraseIdx i } : Config).tabsStore k0 = none from h0) note t]
        exact ⟨r, h, rfl, rfl, rfl, rfl, rfl, rfl, Or.inl rfl, Or.inl rfl⟩
      | some r0 =>
        rw [runTask_tagsWait_some env (show lookupTab
          ({ c with tasks := c.tasks.eraseIdx i } : Config).tabsStore k0 = some r0 from h0) note t]
        by_cases hkk : k = k0
        · subst hkk
          have hr0 : r0 = r := Option.some.inj (h0.symm.trans h)
          subst hr0
          exact ⟨_, lookupTab_setTab_self _ _ _, rfl, rfl, rfl, rfl, rfl, rfl, Or.inl rfl, Or.inr ⟨note, rfl, rfl⟩⟩
        · refine ⟨r, ?_, rfl, rfl, rfl, rfl, rfl, rfl, Or.inl rfl, Or.inl rfl⟩
          simpa [lookupTab_setTab_ne _ hkk] using h
    | tagsSaved k0 tags =>
      rw [runTask_tagsSaved]
      exact ⟨r, h, rfl, rfl, rfl, rfl, rfl, rfl, Or.inl rfl, Or.inl rfl⟩

/-- Witness for the C6 theorem: a tag-write step over a present record. -/
theorem concurrent_runs_field_scoped_writes_witness :
    lookupTab cfgOneTab.tabsStore 1 = some recWithRaw ∧
    (∃ r', lookupTab (taskStepHandler envSumOnly cfgOneTab 0 5).tabsStore 1 = some r' ∧
      r'.tabId = recWithRaw.tabId ∧ r'.url = recWithRaw.url ∧
      r'.title = recWithRaw.title ∧ r'.rawText = recWithRaw.rawText ∧
      r'.clusterId = recWithRaw.clusterId ∧ r'.totalTime = recWithRaw.totalTime ∧
      (r'.tabNote = recWithRaw.tabNote ∨
        ∃ d, cfgOneTab.tasks.get? 0 = some (.noteWait 1 d) ∧
          r'.tabNote = some (generateTabNote envSumOnly (d.bodyText.getD ""))) ∧
      (r'.tags = recWithRaw.tags ∨
        ∃ note, cfgOneTab.tasks.get? 0 = some (.tagsWait 1 note) ∧
          r'.tags = some (generateSmartTags envSumOnly note))) :=
  ⟨by decide,
   concurrent_runs_field_scoped_writes envSumOnly cfgOneTab 0 5 1 recWithRaw (by decide)⟩

/-- C8 (amended): for a record that exists before and after an event,
every mutation is a field write that sets `lastUpdated` to the clock
value of that event, so `lastUpdated` either stays unchanged or becomes
the event time — under a non-decreasing clock it never decreases.  The
store must have no duplicate keys (always true of a JS object).  The
exception shown by the counterexample — the resurrection write, which
installs an empty record — requires the record to be absent and is
therefore outside this statement. -/
theorem record_mutation_bumps_lastUpdated (env : Env) (c : Config) (e : Event)
    (k : Nat) (r r' : TabRecord)
    (hnd : (c.tabsStore.map Prod.fst).Nodup)
    (hb : lookupTab c.tabsStore k = some r)
    (ha : lookupTab (applyEvent env c e).tabsStore k = some r') :
    (r'.lastUpdated = r.lastUpdated ∨ r'.lastUpdated = some (eventTime e)) ∧
    (∀ t0 t1, r.lastUpdated = some t0 → t0 ≤ eventTime e →
      r'.lastUpdated = some t1 → t0 ≤ t1) := by
  have main : r'.lastUpdated = r.lastUpdated ∨ r'.lastUpdated = some (eventTime e) := by
    cases e with
    | pageContent k0 d t =>
      have hstore : lookupTab (applyEvent env c (.pageContent k0 d t)).tabsStore k =
          some r := by
        show lookupTab (pageContentHandler c k0 d t).tabsStore k = some r
        by_cases hk0 : k0 = 0
        · subst hk0
          rw [pageContentHandler_zero]
          exact hb
        · cases h0 : lookupTab c.tabsStore k0 with
          | some r0 =>
            rw [pageContentHandler_existing hk0 h0 d t]
            exact startProcessTab_lookup_preserve hb k0 d t
          | none =>
            have hkk : k ≠ k0 := by
              intro he
              rw [he, h0] at hb
              cases hb
            rw [pageContentHandler_new hk0 h0 d t]
            refine startProcessTab_lookup_preserve ?_ k0 d t
            show lookupTab ({ c with
              tabsStore := setTab c.tabsStore k0 (capturedRecord k0 d t) } : Config).tabsStore k =
              some r
            simpa [lookupTab_setTab_ne _ hkk] using hb
      exact Or.inl (by rw [Option.some.inj (hstore.symm.trans ha)])
    | tabRemoved k0 =>
      cases h0 : lookupTab c.tabsStore k0 with
      | none =>
        have hstore : applyEvent env c (.tabRemoved k0) = c := by
          show removeTabHandler c k0 = c
          exact removeTabHandler_absent h0
        rw [hstore] at ha
        exact Or.inl (by rw [Option.some.inj (hb.symm.trans ha)])
      | some r0 =>
        have hstore : (applyEvent env c (.tabRemoved k0)).tabsStore =
            eraseTab c.tabsStore k0 := by
          show (removeTabHandler c k0).tabsStore = _
          rw [removeTabHandler_present h0]
        rw [hstore] at ha
        by_cases hkk : k = k0
        · exfalso
          subst hkk
          rw [lookupTab_eraseTab_self k hnd] at ha
          cases ha
        · rw [lookupTab_eraseTab_ne _ hkk] at ha
          exact Or.inl (by rw [Option.some.inj (hb.symm.trans ha)])
    | taskStep i t =>
      have ha' : lookupTab (taskStepHandler env c i t).tabsStore k = some r' := ha
      cases hget : c.tasks.get? i with
      | none =>
        rw [taskStepHandler_oob env hget t] at ha'
        exact Or.inl (by rw [Option.some.inj (hb.symm.trans ha')])
      | some task =>
        rw [taskStepHandler_get env hget t] at ha'
        cases task with
        | noteWait k0 d =>
          cases h0 : lookupTab c.tabsStore k0 with
          | none =>
            rw [runTask_noteWait_none env (show lookupTab
              ({ c with tasks := c.tasks.eraseIdx i } : Config).tabsStore k0 = none from h0) d t] at ha'
            exact Or.inl (by rw [Option.some.inj (hb.symm.trans ha')])
          | some r0 =>
            rw [runTask_noteWait_some env (show lookupTab
              ({ c with tasks := c.tasks.eraseIdx i } : Config).tabsStore k0 = some r0 from h0) d t] at ha'
            by_cases hkk : k = k0
            · subst hkk
              have hr0 : r0 = r := Option.some.inj (h0.symm.trans hb)
              subst hr0
              have ha2 : lookupTab (setTab c.tabsStore k { r0 with tabNote := some (generateTabNote env (d.bodyText.getD "")), lastUpdated := some t }) k = some r' := ha'
              rw [lookupTab_setTab_self] at ha2
              exact Or.inr (by rw [← Option.some.inj ha2]; rfl)
            · have ha2 : lookupTab (setTab c.tabsStore k0 { r0 with tabNote := some (generateTabNote env (d.bodyText.getD "")), lastUpdated := some t }) k = some r' := ha'
              rw [lookupTab_setTab_ne _ hkk] at ha2
              exact Or.inl (by rw [Option.some.inj (hb.symm.trans ha2)])
        | afterSave k0 note =>
          cases h0 : lookupTab c.tabsStore k0 with
          | some r0 =>
            rw [runTask_afterSave_some env (show lookupTab
              ({ c with tasks := c.tasks.eraseIdx i } : Config).tabsStore k0 = some r0 from h0) note t] at ha'
            exact Or.inl (by rw [Option.some.inj (hb.symm.trans ha')])
          | none =>
            have hkk : k ≠ k0 := by
              intro he
              rw [he, h0] at hb
              cases hb
            rw [runTask_afterSave_none env (show lookupTab
              ({ c with tasks := c.tasks.eraseIdx i } : Config).tabsStore k0 = none from h0) note t] at ha'
            have ha2 : lookupTab (setTab c.tabsStore k0 emptyRecord) k = some r' := ha'
            rw [lookupTab_setTab_ne _ hkk] at ha2
            exact Or.inl (by rw [Option.some.inj (hb.symm.trans ha2)])
        | tagsWait k0 note =>
          cases h0 : lookupTab c.tabsStore k0 with
          | none =>
            rw [runTask_tagsWait_none env (show lookupTab
              ({ c with tasks := c.tasks.eraseIdx i } : Config).tabsStore k0 = none from h0) note t] at ha'
            exact Or.inl (by rw [Option.some.inj (hb.symm.trans ha')])
          | some r0 =>
            rw [runTask_tagsWait_some env (show lookupTab
              ({ c with tasks := c.tasks.eraseIdx i } : Config).tabsStore k0 = some r0 from h0) note t] at ha'
            by_cases hkk : k = k0
            · subst hkk
              have hr0 : r0 = r := Option.some.inj (h0.symm.trans hb)
              subst hr0
              have ha2 : lookupTab (setTab c.tabsStore k { r0 with tags := some (generateSmartTags env note), lastUpdated := some t }) k = some r' := ha'
              rw [lookupTab_setTab_self] at ha2
              exact Or.inr (by rw [← Option.some.inj ha2]; rfl)
            · have ha2 : lookupTab (setTab c.tabsStore k0 { r0 with tags := some (generateSmartTags env note), lastUpdated := some t }) k = some r' := ha'
              rw [lookupTab_setTab_ne _ hkk] at ha2
              exact Or.inl (by rw [Option.some.inj (hb.symm.trans ha2)])
        | tagsSaved k0 tags =>
          rw [runTask_tagsSaved] at ha'
          exact Or.inl (by rw [Option.some.inj (hb.symm.trans ha')])
    | triggerDownload success t =>
      cases success with
      | false =>
        have hstore : applyEvent env c (.triggerDownload false t) = c :=
          triggerDownloadHandler_failure c t
        rw [hstore] at ha
        exact Or.inl (by rw [Option.some.inj (hb.symm.trans ha)])
      | true =>
        have hstore : (applyEvent env c (.triggerDownload true t)).tabsStore =
            c.tabsStore := by
          show (triggerDownloadHandler c true t).tabsStore = _
          rw [triggerDownload_true c t hnd]
        rw [hstore] at ha
        exact Or.inl (by rw [Option.some.inj (hb.symm.trans ha)])
  refine ⟨main, ?_⟩
  intro t0 t1 h0 hle h1
  rcases main with hsame | hnew
  · rw [h1, h0] at hsame
    rw [Option.some.inj hsame]
  · rw [h1] at hnew
    rw [Option.some.inj hnew]
    exact hle

/-- Witness for the amended C8 theorem: a summary-write step bumps the
timestamp of the present record of tab 1. -/
theorem record_mutation_bumps_lastUpdated_witness :
    ((cfgOneTab.tabsStore.map Prod.fst).Nodup) ∧
    lookupTab cfgOneTab.tabsStore 1 = some recWithRaw ∧
    lookupTab (applyEvent envSumOnly cfgOneTab (.tabRemoved 2)).tabsStore 1 =
      some recWithRaw ∧
    ((recWithRaw.lastUpdated = recWithRaw.lastUpdated ∨
      recWithRaw.lastUpdated = some (eventTime (Event.tabRemoved 2))) ∧
     (∀ t0 t1, recWithRaw.lastUpdated = some t0 →
       t0 ≤ eventTime (Event.tabRemoved 2) →
       recWithRaw.lastUpdated = some t1 → t0 ≤ t1)) :=
  ⟨by decide, by decide, by decide,
   record_mutation_bumps_lastUpdated envSumOnly cfgOneTab (.tabRemoved 2) 1
     recWithRaw recWithRaw (by decide) (by decide) (by decide)⟩

/-- C9: the successful backend-ready transition re-invokes the pipeline
exactly once for every stored record with truthy cached raw text (and a
truthy tab id): the count of pending runs parked at `generateTabNote`
for such a tab grows by exactly one, records with falsy or absent raw
text and untracked tabs get no re-run, the store itself is untouched,
and a failed transition does nothing — the catch-up is driven solely by
this explicit event. -/
theorem backend_ready_catchup (env : Env) (c : Config) (t : Nat)
    (hnd : (c.tabsStore.map Prod.fst).Nodup) :
    (∀ k r, k ≠ 0 → lookupTab c.tabsStore k = some r →
      truthyStr r.rawText = true →
      countNoteWait k (applyEvent env c (.triggerDownload true t)).tasks =
        countNoteWait k c.tasks + 1) ∧
    (∀ k r, lookupTab c.tabsStore k = some r → truthyStr r.rawText = false →
      countNoteWait k (applyEvent env c (.triggerDownload true t)).tasks =
        countNoteWait k c.tasks) ∧
    (∀ k, lookupTab c.tabsStore k = none →
      countNoteWait k (applyEvent env c (.triggerDownload true t)).tasks =
        countNoteWait k c.tasks) ∧
    (applyEvent env c (.triggerDownload true t)).tabsStore = c.tabsStore ∧
    applyEvent env c (.triggerDownload false t) = c := by
  have htd : applyEvent env c (.triggerDownload true t) =
      { c with msgs := c.msgs ++ [Msg.modelReady],
               tasks := c.tasks ++ c.tabsStore.filterMap catchupSpawn } := by
    show triggerDownloadHandler c true t = _
    exact triggerDownload_true c t hnd
  refine ⟨?_, ?_, ?_, ?_, ?_⟩
  · intro k r hk hl htr
    rw [htd]
    show countNoteWait k (c.tasks ++ c.tabsStore.filterMap catchupSpawn) = _
    rw [countNoteWait_append, countSpawn_lookup hnd hl, if_pos ⟨hk, htr⟩]
  · intro k r hl htr
    rw [htd]
    show countNoteWait k (c.tasks ++ c.tabsStore.filterMap catchupSpawn) = _
    rw [countNoteWait_append, countSpawn_lookup hnd hl,
      if_neg (by simp [htr])]
    omega
  · intro k hl
    rw [htd]
    show countNoteWait k (c.tasks ++ c.tabsStore.filterMap catchupSpawn) = _
    rw [countNoteWait_append,
      countSpawn_not_mem (not_mem_keys_of_lookupTab_eq_none hl)]
    omega
  · rw [htd]
  · show triggerDownloadHandler c false t = c
    exact triggerDownloadHandler_failure c t

/-- Witness for the C9 theorem on a store with one cached-raw-text
record and one without. -/
theorem backend_ready_catchup_witness :
    ((cfgCatchup.tabsStore.map Prod.fst).Nodup) ∧
    lookupTab cfgCatchup.tabsStore 1 = some recWithRaw ∧
    truthyStr recWithRaw.rawText = true ∧
    countNoteWait 1 (applyEvent envUnavailable cfgCatchup (.triggerDownload true 9)).tasks =
      countNoteWait 1 cfgCatchup.tasks + 1 ∧
    countNoteWait 2 (applyEvent envUnavailable cfgCatchup (.triggerDownload true 9)).tasks =
      countNoteWait 2 cfgCatchup.tasks ∧
    applyEvent envUnavailable cfgCatchup (.triggerDownload false 9) = cfgCatchup :=
  ⟨by decide, by decide, by decide,
   (backend_ready_catchup envUnavailable cfgCatchup 9 (by decide)).1 1 recWithRaw
     (by decide) (by decide) (by decide),
   (backend_ready_catchup envUnavailable cfgCatchup 9 (by decide)).2.1 2 recNoRaw
     (by decide) (by decide),
   (backend_ready_catchup envUnavailable cfgCatchup 9 (by decide)).2.2.2.2⟩

/-- C10: when at least one stored record matches the query as a
case-insensitive substring of its note or title, `unifiedMemorySearch`
returns exactly the keyword matches in store order — for every backend
environment, so the prompt backend is never consulted; and when nothing
matches, an absent prompt instance, a rejected prompt request, a
non-string response, or an unparsable response each yield the empty
list rather than a fault (the function is total). -/
theorem memory_search_keyword_and_fallback (env : Env) (query : String)
    (tabsStore : List TabRecord) :
    ((∃ tr ∈ tabsStore, matchesKeyword query tr = true) →
      unifiedMemorySearch env query tabsStore =
        tabsStore.filter (matchesKeyword query)) ∧
    ((∀ tr ∈ tabsStore, matchesKeyword query tr = false) →
      (env.prompter = none → unifiedMemorySearch env query tabsStore = []) ∧
      (∀ pf, env.prompter = some pf →
        (pf (searchPrompt query tabsStore) = .err →
          unifiedMemorySearch env query tabsStore = []) ∧
        (∀ s0, pf (searchPrompt query tabsStore) = .ok (.objText s0) →
          unifiedMemorySearch env query tabsStore = []) ∧
        (pf (searchPrompt query tabsStore) = .ok .otherVal →
          unifiedMemorySearch env query tabsStore = []) ∧
        (∀ s0, pf (searchPrompt query tabsStore) = .ok (.strVal s0) →
          env.jsonParse (jsTrim ((stripFences (jsTrim s0).toList).asString)) = none →
          unifiedMemorySearch env query tabsStore = []))) := by
  constructor
  · rintro ⟨tr, htr, hm⟩
    have hpos : 0 < (tabsStore.filter (matchesKeyword query)).length :=
      List.length_pos.mpr (List.ne_nil_of_mem (List.mem_filter.mpr ⟨htr, hm⟩))
    simp only [unifiedMemorySearch, if_pos hpos]
  · intro hall
    have hnil : tabsStore.filter (matchesKeyword query) = [] :=
      List.filter_eq_nil_iff.mpr (fun a ha => by simp [hall a ha])
    have hlen : ¬ 0 < (tabsStore.filter (matchesKeyword query)).length := by
      rw [hnil]
      simp
    refine ⟨?_, ?_⟩
    · intro hnone
      simp only [unifiedMemorySearch, if_neg hlen, hnone]
    · intro pf hpf
      refine ⟨?_, ?_, ?_, ?_⟩
      · intro herr
        simp only [unifiedMemorySearch, if_neg hlen, hpf, herr]
      · intro s0 hobj
        simp only [unifiedMemorySearch, if_neg hlen, hpf, hobj]
      · intro hother
        simp only [unifiedMemorySearch, if_neg hlen, hpf, hother]
      · intro s0 hstr hparse
        simp only [unifiedMemorySearch, if_neg hlen, hpf, hstr, hparse]

/-- Witness for the C10 theorem: a store whose single record mentions
Lean in its note, searched case-insensitively. -/
theorem memory_search_keyword_and_fallback_witness :
    (∃ tr ∈ [recSearch], matchesKeyword "lean" tr = true) ∧
    unifiedMemorySearch envUnavailable "lean" [recSearch] =
      List.filter (matchesKeyword "lean") [recSearch] ∧
    (∀ tr ∈ ([] : List TabRecord), matchesKeyword "zzz" tr = false) ∧
    unifiedMemorySearch envUnavailable "zzz" [] = [] :=
  ⟨by decide,
   (memory_search_keyword_and_fallback envUnavailable "lean" [recSearch]).1
     (by decide),
   by decide,
   ((memory_search_keyword_and_fallback envUnavailable "zzz" []).2
     (by decide)).1 rfl⟩

end Tabrix
